import Mathlib

/-!
Verification development for a single-node RESP key/value server
(Python sources under `app/`: `resp.py`, `storage.py`, `command.py`).

Shallow embedding conventions:
* Python `bytes` values are `List Nat` (each element a byte value).
* Python `str` values are `List Nat` of Unicode code points; `str.encode()`
  is UTF-8 encoding, `bytes.decode()` UTF-8 decoding.
* Python exceptions are modelled with `Except PyErr`.
* Wall-clock time (`datetime.now()`, `time.time()`) is passed explicitly
  as a parameter (`now_ms`).
* Python `float` values are not modelled (binary64 floating point); the
  decoder's `,` branch returns a dedicated error marker, and TTL strings
  are parsed as integers (the claims never exercise fractional values).
-/

namespace Redis

/-- Python exception values relevant to the embedded code. -/
inductive PyErr where
  /-- `ValueError(msg)`; a `ValueError()` raised with no argument carries `""`. -/
  | valueError (msg : String)
  /-- `TypeError` (e.g. `len(None)`, `int(list)`). -/
  | typeError
  /-- `KeyError(key)` from a failed dict lookup. -/
  | keyError (key : String)
  /-- `AttributeError` from attribute access on `None`. -/
  | attributeError
  /-- `UnicodeDecodeError` escaping (uncaught) from `bytes.decode()`. -/
  | unicodeError
  /-- a plain `raise Exception(msg)`. -/
  | exception (msg : String)
  /-- the decoder's `,` (float) branch: floats are outside this model. -/
  | floatUnmodelled
  /-- marker for inputs on which the source's `while` loop does not advance
      (the Python code would loop forever); never reached on well-formed input. -/
  | diverge
  deriving DecidableEq, Repr

/-! ## Byte/slice primitives (Python `bytes` indexing semantics) -/

/-- Normalize a Python slice index: negative indices count from the end,
and the result is clamped to `[0, len]`. -/
def pyIdx (len : Nat) (i : Int) : Nat :=
  if i < 0 then (↑len + i).toNat else min i.toNat len

/-- Python `l[a:b]` on a sequence. -/
def pySlice {α : Type} (l : List α) (a b : Int) : List α :=
  (l.take (pyIdx l.length b)).drop (pyIdx l.length a)

/-- Position of the first occurrence of the two-byte pattern `\r\n` (13, 10). -/
def findSub : List Nat → Option Nat
  | [] => none
  | a :: rest =>
    if a = 13 ∧ rest.head? = some 10 then some 0
    else (findSub rest).map (· + 1)

/-- Python `payload.find(b"\r\n", start)`: index of the first occurrence at
position `≥ start` (after Python index normalization), or `-1`. -/
def bytesFind (l : List Nat) (start : Int) : Int :=
  match findSub (l.drop (pyIdx l.length start)) with
  | some k => ((pyIdx l.length start : Nat) : Int) + k
  | none => -1

/-! ## Decimal digits: Python `str(int)` and `int(str)` -/

/-- Little-endian decimal digit values of `n`; the fuel argument (first) makes
the recursion structural, `fuel ≥ n` is enough. -/
def natDigitsAux : Nat → Nat → List Nat
  | 0, _ => []
  | _ + 1, 0 => []
  | fuel + 1, n + 1 => ((n + 1) % 10) :: natDigitsAux fuel ((n + 1) / 10)

/-- ASCII byte codes of Python `str(n)` for a natural number. -/
def natDigits (n : Nat) : List Nat :=
  if n = 0 then [48] else (natDigitsAux n n).reverse.map (· + 48)

/-- ASCII byte codes of Python `str(z)` for an integer. -/
def intDigits (z : Int) : List Nat :=
  if z < 0 then 45 :: natDigits z.natAbs else natDigits z.toNat

/-- Is `c` the code of an ASCII decimal digit? -/
def isDigitCode (c : Nat) : Bool := 48 ≤ c && c ≤ 57

/-- Value of a big-endian ASCII digit string. -/
def digitsVal (l : List Nat) : Nat :=
  l.foldl (fun a c => a * 10 + (c - 48)) 0

/-- Python `int(text)` on a code-point/byte sequence: optional sign followed by
decimal digits. (Python additionally tolerates surrounding whitespace and
inner underscores; those forms never arise in this development.) -/
def pyIntParse (l : List Nat) : Except PyErr Int :=
  match l with
  | [] => .error (.valueError "invalid literal for int")
  | c :: rest =>
    if c = 45 then
      if !rest.isEmpty && rest.all isDigitCode then .ok (-(digitsVal rest : Int))
      else .error (.valueError "invalid literal for int")
    else if c = 43 then
      if !rest.isEmpty && rest.all isDigitCode then .ok (digitsVal rest : Int)
      else .error (.valueError "invalid literal for int")
    else
      if (c :: rest).all isDigitCode then .ok (digitsVal (c :: rest) : Int)
      else .error (.valueError "invalid literal for int")

/-! ## UTF-8 (Python `str.encode()` / `bytes.decode()`) -/

/-- UTF-8 encoding of one code point. -/
def utf8EncodeChar (c : Nat) : List Nat :=
  if c < 128 then [c]
  else if c < 2048 then [192 + c / 64, 128 + c % 64]
  else if c < 65536 then [224 + c / 4096, 128 + c / 64 % 64, 128 + c % 64]
  else [240 + c / 262144, 128 + c / 4096 % 64, 128 + c / 64 % 64, 128 + c % 64]

/-- UTF-8 encoding of a code-point sequence (`str.encode()`). -/
def utf8Encode : List Nat → List Nat
  | [] => []
  | c :: cs => utf8EncodeChar c ++ utf8Encode cs

/-- One strict-UTF-8 code point from a lead byte and the following bytes:
the decoded code point and the remaining bytes, or `none` on invalid input
(stray continuation bytes, overlong forms, surrogates, out-of-range
leads). -/
def utf8DecodeOne (b : Nat) (rest : List Nat) : Option (Nat × List Nat) :=
  if b < 128 then some (b, rest)
  else if 194 ≤ b && b ≤ 223 then
    match rest with
    | b2 :: rest2 =>
      if 128 ≤ b2 && b2 ≤ 191 then some ((b - 192) * 64 + (b2 - 128), rest2)
      else none
    | [] => none
  else if 224 ≤ b && b ≤ 239 then
    match rest with
    | b2 :: b3 :: rest3 =>
      if (if b = 224 then 160 ≤ b2 && b2 ≤ 191
          else if b = 237 then 128 ≤ b2 && b2 ≤ 159
          else 128 ≤ b2 && b2 ≤ 191) && (128 ≤ b3 && b3 ≤ 191) then
        some ((b - 224) * 4096 + (b2 - 128) * 64 + (b3 - 128), rest3)
      else none
    | _ => none
  else if 240 ≤ b && b ≤ 244 then
    match rest with
    | b2 :: b3 :: b4 :: rest4 =>
      if (if b = 240 then 144 ≤ b2 && b2 ≤ 191
          else if b = 244 then 128 ≤ b2 && b2 ≤ 143
          else 128 ≤ b2 && b2 ≤ 191) && (128 ≤ b3 && b3 ≤ 191)
          && (128 ≤ b4 && b4 ≤ 191) then
        some ((b - 240) * 262144 + (b2 - 128) * 4096 + (b3 - 128) * 64 + (b4 - 128),
          rest4)
      else none
    | _ => none
  else none

/-- The decode loop; each step consumes at least one byte, so fuel equal to
the input length is enough and the zero-fuel branch is unreachable. -/
def utf8DecodeAux : Nat → List Nat → Option (List Nat)
  | _, [] => some []
  | 0, _ :: _ => none
  | fuel + 1, b :: rest =>
    match utf8DecodeOne b rest with
    | none => none
    | some (cp, rest2) => (utf8DecodeAux fuel rest2).map (cp :: ·)

/-- Strict UTF-8 decoding (`bytes.decode()`), `none` on invalid input. -/
def utf8Decode (l : List Nat) : Option (List Nat) := utf8DecodeAux l.length l

/-! ## RESP values and `encode` (`resp.py`) -/

/-- Python values handled by `resp.encode` (floats excluded from the model).
`error msg` stands for `ValueError(msg)` with a single message argument
(`encode` renders `" ".join(args)`; all errors in this code carry one). -/
inductive PyVal where
  | str (s : List Nat)
  | int (n : Int)
  | noneVal
  | list (l : List PyVal)
  | error (msg : List Nat)
  | bytes (b : List Nat)
  | map (entries : List (List Nat × PyVal))

/-- `LINE_SEPARATOR = b"\r\n"`. -/
def LINE_SEPARATOR : List Nat := [13, 10]

/-- `encode_simple(data)`: `b"+" + data.encode() + b"\r\n"`. -/
def encode_simple (s : List Nat) : List Nat :=
  [43] ++ utf8Encode s ++ LINE_SEPARATOR

mutual
/-- `resp.encode`: RESP serialization, branch for branch from the source
(`str`, `int`, `None`, sequences, `ValueError`, `bytes`, dicts).
The byte `36` is `$`, `58` is `:`, `42` is `*`, `37` is `%`;
`[45, 69, 82, 82, 32]` is `b"-ERR "`. Note the `str` branch writes the
code-point count `len(data)` as the declared length but emits the UTF-8
encoding, and the `bytes` branch emits no trailing separator. -/
def encode : PyVal → List Nat
  | .str s => [36] ++ natDigits s.length ++ LINE_SEPARATOR ++ utf8Encode s ++ LINE_SEPARATOR
  | .int n => [58] ++ intDigits n ++ LINE_SEPARATOR
  | .noneVal => [36, 45, 49] ++ LINE_SEPARATOR
  | .list l => [42] ++ natDigits l.length ++ LINE_SEPARATOR ++ encodeList l
  | .error m => [45, 69, 82, 82, 32] ++ utf8Encode m ++ LINE_SEPARATOR
  | .bytes b => [36] ++ natDigits b.length ++ LINE_SEPARATOR ++ b
  | .map kvs => [37] ++ natDigits kvs.length ++ LINE_SEPARATOR ++ encodeMap kvs

/-- `b"".join(encode(item) for item in data)`. -/
def encodeList : List PyVal → List Nat
  | [] => []
  | v :: vs => encode v ++ encodeList vs

/-- `b"".join(encode_simple(key) + encode(value) for key, value in kwargs.items())`. -/
def encodeMap : List (List Nat × PyVal) → List Nat
  | [] => []
  | (k, v) :: kvs => encode_simple k ++ encode v ++ encodeMap kvs
end

/-! ## `decode` (`resp.py`) -/

/-- `decode_bulk_string(payload, offset)`: parse `$<len>\r\n<content>`;
on a successful UTF-8 decode returns the text and skips the trailing
separator, on `UnicodeDecodeError` returns the raw bytes and does not. -/
def decode_bulk_string (payload : List Nat) (offset : Int) :
    Except PyErr (PyVal × Int) :=
  if pySlice payload offset (offset + 1) = [36] then
    let sep := bytesFind payload (offset + 1)
    match pyIntParse (pySlice payload (offset + 1) sep) with
    | .error e => .error e
    | .ok length =>
      let contentStart : Int := sep + 2
      let contentEnd : Int := contentStart + length
      let content := pySlice payload contentStart contentEnd
      match utf8Decode content with
      | some text => .ok (.str text, contentEnd + 2)
      | none => .ok (.bytes content, contentEnd)
  else .error (.exception "Cannot parse text from payload")

/-- The item loop of `__decode`'s `*` branch: `for _ in range(length)`,
recursing only on items whose first byte is `$` (the guarded recursive
`__decode(payload, i)` call lands in the `$` branch, i.e.
`decode_bulk_string`); other items are skipped without advancing. -/
def starLoop (payload : List Nat) : Nat → Int → List PyVal →
    Except PyErr (List PyVal × Int)
  | 0, i, acc => .ok (acc, i)
  | count + 1, i, acc =>
    if pySlice payload i (i + 1) = [36] then
      match decode_bulk_string payload i with
      | .error e => .error e
      | .ok (v, i2) => starLoop payload count i2 (acc ++ [v])
    else starLoop payload count i acc

/-- `__decode(payload, offset)`: one frame starting at `offset`.
Bytes: `42 = *`, `43 = +`, `58 = :`, `44 = ,`, `36 = $`, `45 = -`.
The `-` branch skips 5 bytes (`-ERR `) before the message. -/
def decodeOne (payload : List Nat) (i : Int) : Except PyErr (PyVal × Int) :=
  if pySlice payload i (i + 1) = [42] then
    let sep := bytesFind payload (i + 1)
    match utf8Decode (pySlice payload (i + 1) sep) with
    | none => .error .unicodeError
    | some txt =>
      match pyIntParse txt with
      | .error e => .error e
      | .ok length =>
        match starLoop payload length.toNat (sep + 2) [] with
        | .error e => .error e
        | .ok (contents, i2) => .ok (.list contents, i2)
  else if pySlice payload i (i + 1) = [43] then
    let sep := bytesFind payload (i + 1)
    match utf8Decode (pySlice payload (i + 1) sep) with
    | none => .error .unicodeError
    | some txt => .ok (.str txt, sep + 2)
  else if pySlice payload i (i + 1) = [58] then
    let sep := bytesFind payload (i + 1)
    match utf8Decode (pySlice payload (i + 1) sep) with
    | none => .error .unicodeError
    | some txt =>
      match pyIntParse txt with
      | .error e => .error e
      | .ok n => .ok (.int n, sep + 2)
  else if pySlice payload i (i + 1) = [44] then .error .floatUnmodelled
  else if pySlice payload i (i + 1) = [36] then decode_bulk_string payload i
  else if pySlice payload i (i + 1) = [45] then
    let sep := bytesFind payload (i + 1)
    match utf8Decode (pySlice payload (i + 5) sep) with
    | none => .error .unicodeError
    | some msg => .ok (.error msg, sep + 2)
  else .error (.exception "Unknown data type")

/-- The `while offset < n` loop of `decode`. The fuel (`payload.length + 1`)
covers every run in which the offset strictly advances; a run that exhausts
it corresponds to the Python loop never exiting (`PyErr.diverge`). -/
def decodeLoop (payload : List Nat) : Nat → Int → List PyVal →
    Except PyErr PyVal
  | fuel, offset, decoded =>
    if offset < (payload.length : Int) then
      match fuel with
      | 0 => .error .diverge
      | fuel + 1 =>
        match decodeOne payload offset with
        | .error e => .error e
        | .ok (item, offset2) =>
          match decoded with
          | [] =>
            if offset2 = (payload.length : Int) then .ok item
            else decodeLoop payload fuel offset2 [item]
          | _ => decodeLoop payload fuel offset2 (decoded ++ [item])
    else .ok (.list decoded)

/-- `resp.decode(payload)`: a single fully-consumed frame is returned as a
scalar, otherwise the list of decoded frames. -/
def decode (payload : List Nat) : Except PyErr PyVal :=
  decodeLoop payload (payload.length + 1) 0 []

/-! ## Storage (`storage.py`) -/

/-- Lexicographic comparison of char lists by code point, Python's `str`
ordering. -/
def charListLt : List Char → List Char → Bool
  | [], [] => false
  | [], _ :: _ => true
  | _ :: _, [] => false
  | a :: as, b :: bs =>
    if a.toNat < b.toNat then true
    else if b.toNat < a.toNat then false
    else charListLt as bs

/-- Python string comparison `a < b` (lexicographic on code points). -/
def pyStrLt (a b : String) : Bool := charListLt a.data b.data

/-- Python string comparison `a <= b`. -/
def pyStrLe (a b : String) : Bool := pyStrLt a b || decide (a = b)

/-- Split a char list at every `'-'` (Python `s.split("-")` with a one-char
separator). -/
def splitDashChars : List Char → List (List Char)
  | [] => [[]]
  | c :: rest =>
    if c = '-' then [] :: splitDashChars rest
    else
      match splitDashChars rest with
      | [] => [[c]]
      | g :: gs => (c :: g) :: gs

/-- Python `s.split("-")`. -/
def pySplitDash (s : String) : List String :=
  (splitDashChars s.data).map fun l => ⟨l⟩

/-- `int(s)` on a Python string. -/
def strIntParse (s : String) : Except PyErr Int :=
  pyIntParse (s.data.map Char.toNat)

/-- `StreamEntry`. The wall-clock `ts` field is omitted: it is read only by
XREAD's timestamp filter, which this development does not touch. -/
structure StreamEntry where
  idx : String
  field_values : List String
  deriving DecidableEq, Repr

/-- `StreamEntry.__init__`: an idx of `"*"` is rewritten to `f"{now_ms}-*"`
using the current wall clock (`int(time.time() * 1_000)`). -/
def StreamEntry.make (idx : String) (fv : List String) (now_ms : Nat) : StreamEntry :=
  if idx = "*" then { idx := toString now_ms ++ "-*", field_values := fv }
  else { idx := idx, field_values := fv }

/-- `StreamEntry.increment_idx_seq_num_and_get(other)`. All comparisons on
ids are Python *string* comparisons. The `Except` models the `ValueError`
Python would raise from `int(...)` or from unpacking a split that does not
have exactly two parts; those branches are unreachable for ids that
`Stream.append` has accepted. -/
def StreamEntry.increment_idx_seq_num_and_get (self : StreamEntry)
    (other : Option StreamEntry) (now_ms : Nat) : Except PyErr StreamEntry :=
  match pySplitDash self.idx with
  | [idx_ms, "*"] =>
    match other with
    | none =>
      let seq_num : Int := if idx_ms = "0" then 1 else 0
      .ok { idx := idx_ms ++ "-" ++ toString seq_num, field_values := self.field_values }
    | some o =>
      if pyStrLt o.idx self.idx then
        let seq_num : Int := if idx_ms = "0" then 1 else 0
        .ok { idx := idx_ms ++ "-" ++ toString seq_num, field_values := self.field_values }
      else
        match pySplitDash o.idx with
        | [other_idx_ms, other_idx_seq_num] =>
          match strIntParse other_idx_seq_num with
          | .error e => .error e
          | .ok v =>
            let seq_num : Int := if idx_ms = other_idx_ms then v + 1 else 0
            .ok { idx := idx_ms ++ "-" ++ toString seq_num, field_values := self.field_values }
        | _ => .error (.valueError "unpack")
  | ["*"] =>
    .ok { idx := toString now_ms ++ "-0", field_values := self.field_values }
  | _ => .ok self

/-- `Stream`: an ordered list of entries. -/
structure Stream where
  entries : List StreamEntry
  deriving DecidableEq, Repr

/-- `Stream.append(entry)`: resolve the id, guard `<= "0-0"` (string
comparison), then guard `self.entries[-1].idx >= entry.idx` (string
comparison) and push. -/
def Stream.append (s : Stream) (entry : StreamEntry) (now_ms : Nat) :
    Except PyErr (Stream × StreamEntry) :=
  match entry.increment_idx_seq_num_and_get none now_ms with
  | .error e => .error e
  | .ok e0 =>
    if pyStrLe e0.idx "0-0" then
      .error (.valueError "The ID specified in XADD must be greater than 0-0")
    else
      match s.entries.getLast? with
      | some last =>
        match entry.increment_idx_seq_num_and_get (some last) now_ms with
        | .error e => .error e
        | .ok e1 =>
          if pyStrLe e1.idx last.idx then
            .error (.valueError
              "The ID specified in XADD is equal or smaller than the target stream top item")
          else .ok ({ entries := s.entries ++ [e1] }, e1)
      | none =>
        match entry.increment_idx_seq_num_and_get none now_ms with
        | .error e => .error e
        | .ok e1 => .ok ({ entries := s.entries ++ [e1] }, e1)

/-- Values held by the store in the modelled command set: strings (SET,
INCR), lists (RPUSH/LPUSH), streams (XADD). Sorted sets are outside the
claims and omitted. -/
inductive StoredVal where
  | vstr (s : String)
  | vlist (l : List String)
  | vstream (s : Stream)
  deriving DecidableEq, Repr

/-- The private dict `Storage.__storage`, as an insertion-ordered
association list `key ↦ (value, expiration_ms)`. -/
abbrev StorageMap := List (String × StoredVal × Int)

/-- Python dict lookup. -/
def dictLookup (st : StorageMap) (k : String) : Option (StoredVal × Int) :=
  match st with
  | [] => none
  | (k2, v) :: rest => if k2 = k then some v else dictLookup rest k

/-- Python dict assignment: replace in place, else append. -/
def dictSet (st : StorageMap) (k : String) (v : StoredVal × Int) : StorageMap :=
  match st with
  | [] => [(k, v)]
  | (k2, v2) :: rest => if k2 = k then (k, v) :: rest else (k2, v2) :: dictSet rest k v

/-- Python `del d[k]`. -/
def dictDel (st : StorageMap) (k : String) : StorageMap :=
  match st with
  | [] => []
  | (k2, v2) :: rest => if k2 = k then rest else (k2, v2) :: dictDel rest k

/-- `Storage.get(key)`: value if present and `now_ms < expiration`; if the
expiry has passed (`now_ms >= expiration`) the entry is deleted and `None`
returned (lazy deletion); absent keys return `None`. Returns the possibly
shrunk store alongside. -/
def Storage.get (st : StorageMap) (k : String) (now_ms : Int) :
    Option StoredVal × StorageMap :=
  match dictLookup st k with
  | some (v, expiration) =>
    if now_ms ≥ expiration then (none, dictDel st k) else (some v, st)
  | none => (none, st)

/-- The default TTL of `Storage.set`: `10**10` milliseconds. -/
def DEFAULT_DURATION_MS : Int := 10 ^ 10

/-- `Storage.set(key, value, duration_ms)`: absolute expiry
`now_ms + duration_ms` (callers that pass no TTL use
`DEFAULT_DURATION_MS`). -/
def Storage.set (st : StorageMap) (k : String) (v : StoredVal)
    (now_ms : Int) (duration_ms : Int) : StorageMap :=
  dictSet st k (v, now_ms + duration_ms)

/-- `Storage.get_list(key)`: `self.get(key) or []`. Falsy values (`None`,
`[]`, `""`, an empty stream) yield `[]`; a truthy non-list value is returned
raw by Python and makes every list operation on it fail, modelled here as
`TypeError`. -/
def Storage.get_list (st : StorageMap) (k : String) (now_ms : Int) :
    Except PyErr (List String × StorageMap) :=
  match Storage.get st k now_ms with
  | (some (.vlist l), st2) => .ok (l, st2)
  | (some (.vstr s), st2) => if s = "" then .ok ([], st2) else .error .typeError
  | (some (.vstream str), st2) =>
    if str.entries = [] then .ok ([], st2) else .error .typeError
  | (none, st2) => .ok ([], st2)

/-- `Storage.get_list_range(key, start, end)`: normalize negative indices
from the tail clamping at 0, add one to the end, and slice. -/
def Storage.get_list_range (st : StorageMap) (k : String) (start fin : Int)
    (now_ms : Int) : Except PyErr (List String × StorageMap) :=
  match Storage.get_list st k now_ms with
  | .error e => .error e
  | .ok (values, st2) =>
    let n : Int := values.length
    let start2 : Int := if start ≥ 0 then start else max 0 (n + start)
    let fin2 : Int := (if fin ≥ 0 then fin else max 0 (n + fin)) + 1
    .ok (pySlice values start2 fin2, st2)

/-- `Storage.get_stream(key)`: `self.get(key) or Stream()`. -/
def Storage.get_stream (st : StorageMap) (k : String) (now_ms : Int) :
    Except PyErr (Stream × StorageMap) :=
  match Storage.get st k now_ms with
  | (some (.vstream s), st2) => .ok (s, st2)
  | (some (.vstr s), st2) => if s = "" then .ok (⟨[]⟩, st2) else .error .typeError
  | (some (.vlist l), st2) => if l = [] then .ok (⟨[]⟩, st2) else .error .typeError
  | (none, st2) => .ok (⟨[]⟩, st2)

/-! ## Command layer (`command.py`) -/

/-- Python `s.upper()` (ASCII case mapping; command names are ASCII). -/
def pyToUpper (s : String) : String := ⟨s.data.map Char.toUpper⟩

/-- Python `s.lower()` (ASCII case mapping). -/
def pyToLower (s : String) : String := ⟨s.data.map Char.toLower⟩

/-- Association-list lookup (Python dict access with a known key). -/
def assocGet {κ α : Type} [DecidableEq κ] (l : List (κ × α)) (k : κ) : Option α :=
  match l with
  | [] => none
  | (k2, v) :: rest => if k2 = k then some v else assocGet rest k

/-- Association-list assignment: replace in place, else append
(Python dict update order). -/
def assocSet {κ α : Type} [DecidableEq κ] (l : List (κ × α)) (k : κ) (v : α) :
    List (κ × α) :=
  match l with
  | [] => [(k, v)]
  | (k2, v2) :: rest =>
    if k2 = k then (k, v) :: rest else (k2, v2) :: assocSet rest k v

/-- Association-list deletion (Python `del`). -/
def assocDel {κ α : Type} [DecidableEq κ] (l : List (κ × α)) (k : κ) :
    List (κ × α) :=
  match l with
  | [] => []
  | (k2, v2) :: rest => if k2 = k then rest else (k2, v2) :: assocDel rest k

/-- `Args`: of the parsed command-line flags only `is_master()`
(`replicaof is None`) is read by the embedded commands. -/
structure Args where
  is_master : Bool
  deriving DecidableEq, Repr

/-- `Context` (`command.py`): a replica connection is represented by the list
of frames written to its writer so far. -/
structure Context where
  args : Args
  offset : Int
  replicas : List (List (List Nat))
  need_preplica_ack : Bool
  deriving DecidableEq, Repr

/-- `Session`: the per-connection subscribed-channel set (`channels`),
modelled as a duplicate-free list. The reader/writer stream objects are not
modelled. -/
structure Session where
  channels : List String
  deriving DecidableEq, Repr

/-- `Session.subscriptions()`. -/
def Session.subscriptions (s : Session) : Nat := s.channels.length

/-- `Session.subscribe(channel)`: `True` iff the channel was new. -/
def Session.subscribe (s : Session) (ch : String) : Bool × Session :=
  if ch ∈ s.channels then (false, s)
  else (true, { channels := s.channels ++ [ch] })

/-- `Session.unsubscribe(channel)`: `True` iff the channel was present. -/
def Session.unsubscribe (s : Session) (ch : String) : Bool × Session :=
  if ch ∈ s.channels then (true, { channels := s.channels.erase ch })
  else (false, s)

/-- A future parked in `waiting_queue`: `live` iff neither cancelled nor
already completed. -/
structure Waiter where
  live : Bool
  deriving DecidableEq, Repr

/-- The module-level `waiting_queue`: per-key FIFO of futures. -/
abbrev WaitQueue := List (String × List Waiter)

/-- `waiting_queue[key]` (a `defaultdict`: missing keys read as empty). -/
def wqGet (wq : WaitQueue) (k : String) : List Waiter :=
  (assocGet wq k).getD []

/-- The inner `while` of `notify_waiting_list`: pop futures from the left
until a live one is completed (popped and woken) or the queue is empty. -/
def notifyOnce : List Waiter → List Waiter
  | [] => []
  | w :: ws => if w.live then ws else notifyOnce ws

/-- `notify_waiting_list(key, times)`: run the pop-until-live loop
`times` times. -/
def notify_waiting_list (wq : WaitQueue) (key : String) : Nat → WaitQueue
  | 0 => wq
  | t + 1 => notify_waiting_list (assocSet wq key (notifyOnce (wqGet wq key))) key t

/-- Process-wide mutable state shared by command handlers. `subscribers` is
the module-level `subscribers` dict; it stores `Session` snapshots here
(Python stores references to the shared mutable `Session`; the
identity-accurate model of the subscription registry is `PubSubState`
below). -/
structure ServerState where
  storage : StorageMap
  waiting : WaitQueue
  subscribers : List (String × List Session)
  deriving DecidableEq, Repr

/-- Command instances after a successful `__init__`, for the commands whose
execution the claims exercise. Registered commands outside this set parse to
`OTHER name`; none of their executions is reached by a theorem below. -/
inductive Cmd where
  | PING
  | ECHO (args : List String)
  | SET (key value : String) (ttlms : Option Int) (args : List String)
  | GET (key : String)
  | LRANGE (key : String) (start fin : Int)
  | RPUSH (key : String) (items : List String)
  | LPUSH (key : String) (items : List String)
  | INCR (key : String)
  | MULTI
  | EXEC
  | DISCARD
  | SUBSCRIBE (channel : String)
  | UNSUBSCRIBE (channel : String)
  | PSUBSCRIBE
  | PUNSUBSCRIBE
  | QUIT
  | OTHER (name : String)
  deriving DecidableEq, Repr

/-- The classes registered with `@registry.register`, in source order. -/
def registeredNames : List String :=
  ["PING", "ECHO", "SET", "GET", "LLEN", "LPOP", "LRANGE", "RPUSH", "LPUSH",
   "BLPOP", "TYPE", "XADD", "XRANGE", "XREAD", "INCR", "MULTI", "EXEC",
   "DISCARD", "INFO", "REPLCONF", "PSYNC", "WAIT", "CONFIG", "KEYS",
   "SUBSCRIBE", "UNSUBSCRIBE", "PSUBSCRIBE", "PUNSUBSCRIBE", "QUIT",
   "PUBLISH", "COMMAND", "ZADD"]

/-- `cmd_class(*args)`: the `__init__` argument matches, command for command.
`name` is already uppercased by the registry lookup. TTL strings are parsed
as integers (Python uses `float`, see the module note). For names parsed to
`OTHER` the (sometimes fallible) `__init__` is not modelled; no claim
reaches them. -/
def cmdInit : String → List String → Except PyErr Cmd
  | "PING", _ => .ok .PING
  | "ECHO", args => .ok (.ECHO args)
  | "SET", args =>
    match args with
    | key :: value :: rest =>
      match rest with
      | [unit, ttl] =>
        if pyToUpper unit = "PX" then
          match strIntParse ttl with
          | .ok v => .ok (.SET key value (some v) args)
          | .error e => .error e
        else if pyToUpper unit = "EX" then
          match strIntParse ttl with
          | .ok v => .ok (.SET key value (some (v * 1000)) args)
          | .error e => .error e
        else .error (.valueError ("Unknown unit: " ++ unit))
      | [] => .ok (.SET key value none args)
      | _ => .error (.valueError "Expected [unit, ttl]")
    | _ => .error (.valueError "")
  | "GET", args =>
    match args with
    | key :: _ => .ok (.GET key)
    | [] => .error (.valueError "")
  | "LRANGE", args =>
    match args with
    | [key, start, fin] =>
      match strIntParse start with
      | .error e => .error e
      | .ok s =>
        match strIntParse fin with
        | .error e => .error e
        | .ok e2 => .ok (.LRANGE key s e2)
    | _ => .error (.valueError "")
  | "RPUSH", args =>
    match args with
    | key :: items => .ok (.RPUSH key items)
    | [] => .error (.valueError "")
  | "LPUSH", args =>
    match args with
    | key :: items => .ok (.LPUSH key items)
    | [] => .error (.valueError "")
  | "INCR", args =>
    match args with
    | [key] => .ok (.INCR key)
    | _ => .error (.valueError "")
  | "MULTI", _ => .ok .MULTI
  | "EXEC", _ => .ok .EXEC
  | "DISCARD", _ => .ok .DISCARD
  | "SUBSCRIBE", args =>
    match args with
    | [channel] => .ok (.SUBSCRIBE channel)
    | _ => .error (.valueError "")
  | "UNSUBSCRIBE", args =>
    match args with
    | [channel] => .ok (.UNSUBSCRIBE channel)
    | _ => .error (.valueError "")
  | "PSUBSCRIBE", _ => .ok .PSUBSCRIBE
  | "PUNSUBSCRIBE", _ => .ok .PUNSUBSCRIBE
  | "QUIT", _ => .ok .QUIT
  | name, _ => .ok (.OTHER name)

/-- A handler's return value: one frame (`bytes`), several (`list[bytes]`),
or Python `None` (commands whose `execute` body is `pass`). -/
inductive Reply where
  | bytes (b : List Nat)
  | frames (l : List (List Nat))
  | noneReply
  deriving DecidableEq, Repr

/-- Code points of a Lean string (for feeding Python-str values to the
codec). -/
def strCP (s : String) : List Nat := s.data.map Char.toNat

/-- `" ".join(parts)`. -/
def joinSpace : List String → String
  | [] => ""
  | [s] => s
  | s :: rest => s ++ " " ++ joinSpace rest

/-- `encode` applied to a value read back from the store (`GET`). Streams
hit `encode`'s unsupported-type branch, which raises. -/
def encodeStored : Option StoredVal → Except PyErr (List Nat)
  | none => .ok (encode .noneVal)
  | some (.vstr s) => .ok (encode (.str (strCP s)))
  | some (.vlist l) => .ok (encode (.list (l.map fun x => .str (strCP x))))
  | some (.vstream _) => .error (.exception "Unsupported encoding data type")

/-- `cmd.execute()` for the modelled commands, given the attached context and
session (`None` when the instance was never given one — notably the case for
commands queued in a transaction). Wall-clock reads are `now_ms`. -/
def Cmd.exec (c : Cmd) (ctx : Option Context) (sess : Option Session)
    (st : ServerState) (now_ms : Int) :
    Except PyErr (Reply × Option Context × Option Session × ServerState) :=
  match c with
  | .PING =>
    let masterish := match ctx with
      | none => true
      | some c2 => c2.args.is_master
    if masterish then
      match sess with
      | some s =>
        if 0 < s.subscriptions then
          .ok (.bytes (encode (.list [.str (strCP "pong"), .str []])), ctx, sess, st)
        else .ok (.bytes (encode_simple (strCP "PONG")), ctx, sess, st)
      | none => .ok (.bytes (encode_simple (strCP "PONG")), ctx, sess, st)
    else .ok (.frames [], ctx, sess, st)
  | .ECHO args => .ok (.bytes (encode_simple (strCP (joinSpace args))), ctx, sess, st)
  | .SET key value ttlms args =>
    let storage2 := match ttlms with
      | some t => Storage.set st.storage key (.vstr value) now_ms t
      | none => Storage.set st.storage key (.vstr value) now_ms DEFAULT_DURATION_MS
    let st2 := { st with storage := storage2 }
    match ctx with
    | some c2 =>
      let frame := encode (.list ((["SET"] ++ args).map fun a => .str (strCP a)))
      let c3 := { c2 with
        need_preplica_ack := !c2.replicas.isEmpty,
        replicas := c2.replicas.map fun w => w ++ [frame] }
      if c2.args.is_master then
        .ok (.bytes (encode_simple (strCP "OK")), some c3, sess, st2)
      else .ok (.bytes [], some c3, sess, st2)
    | none => .ok (.bytes (encode_simple (strCP "OK")), none, sess, st2)
  | .GET key =>
    let (v, storage2) := Storage.get st.storage key now_ms
    match encodeStored v with
    | .ok b => .ok (.bytes b, ctx, sess, { st with storage := storage2 })
    | .error e => .error e
  | .LRANGE key start fin =>
    match Storage.get_list_range st.storage key start fin now_ms with
    | .error e => .error e
    | .ok (values, storage2) =>
      .ok (.bytes (encode (.list (values.map fun x => .str (strCP x)))), ctx, sess,
        { st with storage := storage2 })
  | .RPUSH key items =>
    match Storage.get_list st.storage key now_ms with
    | .error e => .error e
    | .ok (values, storage2) =>
      let values2 := values ++ items
      let storage3 := Storage.set storage2 key (.vlist values2) now_ms DEFAULT_DURATION_MS
      let waiting2 := notify_waiting_list st.waiting key values2.length
      .ok (.bytes (encode (.int values2.length)), ctx, sess,
        { storage := storage3, waiting := waiting2, subscribers := st.subscribers })
  | .LPUSH key items =>
    match Storage.get_list st.storage key now_ms with
    | .error e => .error e
    | .ok (values, storage2) =>
      let values2 := items.reverse ++ values
      let storage3 := Storage.set storage2 key (.vlist values2) now_ms DEFAULT_DURATION_MS
      let waiting2 := notify_waiting_list st.waiting key values2.length
      .ok (.bytes (encode (.int values2.length)), ctx, sess,
        { storage := storage3, waiting := waiting2, subscribers := st.subscribers })
  | .INCR key =>
    let (v, storage2) := Storage.get st.storage key now_ms
    match v with
    | none =>
      .ok (.bytes (encode (.int 1)), ctx, sess,
        { st with storage := Storage.set storage2 key (.vstr "1") now_ms DEFAULT_DURATION_MS })
    | some (.vstr s) =>
      match strIntParse s with
      | .ok n =>
        .ok (.bytes (encode (.int (n + 1))), ctx, sess,
          { st with storage :=
            Storage.set storage2 key (.vstr (toString (n + 1))) now_ms DEFAULT_DURATION_MS })
      | .error _ =>
        .ok (.bytes (encode (.error (strCP "value is not an integer or out of range"))),
          ctx, sess, { st with storage := storage2 })
    | some _ => .error .typeError
  | .MULTI => .ok (.bytes (encode_simple (strCP "OK")), ctx, sess, st)
  | .EXEC => .ok (.bytes (encode_simple (strCP "OK")), ctx, sess, st)
  | .DISCARD => .ok (.bytes (encode_simple (strCP "OK")), ctx, sess, st)
  | .SUBSCRIBE channel =>
    match sess with
    | none => .error .attributeError
    | some s =>
      let (added, s2) := s.subscribe channel
      let subs2 :=
        if added then
          assocSet st.subscribers channel (((assocGet st.subscribers channel).getD []) ++ [s2])
        else st.subscribers
      .ok (.bytes (encode (.list [.str (strCP "subscribe"), .str (strCP channel),
          .int s2.subscriptions])), ctx, some s2, { st with subscribers := subs2 })
  | .UNSUBSCRIBE channel =>
    match sess with
    | none => .error .attributeError
    | some s =>
      let (removed, s2) := s.unsubscribe channel
      let subs2 :=
        if removed then
          assocSet st.subscribers channel (((assocGet st.subscribers channel).getD []).erase s2)
        else st.subscribers
      .ok (.bytes (encode (.list [.str (strCP "unsubscribe"), .str (strCP channel),
          .int s2.subscriptions])), ctx, some s2, { st with subscribers := subs2 })
  | .PSUBSCRIBE => .ok (.noneReply, ctx, sess, st)
  | .PUNSUBSCRIBE => .ok (.noneReply, ctx, sess, st)
  | .QUIT => .ok (.noneReply, ctx, sess, st)
  | .OTHER name => .error (.exception ("execution not modelled: " ++ name))

/-- `decode(await cmd.execute())` inside EXEC's comprehension: `decode`
expects bytes; a multi-frame or `None` reply makes the Python call fail with
a `TypeError`-class crash. -/
def replyDecode : Reply → Except PyErr PyVal
  | .bytes b => decode b
  | .frames _ => .error .typeError
  | .noneReply => .error .typeError

/-- The transaction map `CommandRegistry.__transactions`:
`connection_id ↦ queued command instances`. -/
abbrev TxMap := List (Nat × List Cmd)

/-- EXEC's comprehension
`[decode(await cmd.execute()) for cmd in self.__transactions[tid]]`:
the queued commands run sequentially against the shared state, each carrying
`context = None`, `session = None` (they were never attached), and each reply
frame is decoded. -/
def execQueue : List Cmd → ServerState → Int →
    Except PyErr (List PyVal × ServerState)
  | [], st, _ => .ok ([], st)
  | c :: rest, st, now_ms =>
    match c.exec none none st now_ms with
    | .error e => .error e
    | .ok (reply, _, _, st2) =>
      match replyDecode reply with
      | .error e => .error e
      | .ok v =>
        match execQueue rest st2 now_ms with
        | .error e => .error e
        | .ok (vs, st3) => .ok (v :: vs, st3)

/-- `CommandRegistry.__execute`. Note for the queueing branch: the source
constructs a *second* instance `cmd_class(*args)` (value-equal to
`cmd_instance`) and appends it without attaching context or session. -/
def registryExecuteInner (txs : TxMap) (tid : Nat) (ctx : Context)
    (sess : Session) (command : String) (args : List String)
    (st : ServerState) (now_ms : Int) :
    Except PyErr (Reply × TxMap × Context × Session × ServerState) :=
  let cmd := pyToUpper command
  if registeredNames.contains cmd then
    match cmdInit cmd args with
    | .error e => .error e
    | .ok inst =>
      if cmd = "MULTI" then
        match inst.exec (some ctx) (some sess) st now_ms with
        | .error e => .error e
        | .ok (r, ctx2, sess2, st2) =>
          .ok (r, assocSet txs tid [], ctx2.getD ctx, sess2.getD sess, st2)
      else if cmd = "EXEC" then
        match assocGet txs tid with
        | none =>
          .ok (.bytes (encode (.error (strCP "EXEC without MULTI"))), txs, ctx, sess, st)
        | some q =>
          match execQueue q st now_ms with
          | .error e => .error e
          | .ok (responses, st2) =>
            .ok (.bytes (encode (.list responses)), assocDel txs tid, ctx, sess, st2)
      else if cmd = "DISCARD" then
        match assocGet txs tid with
        | none =>
          .ok (.bytes (encode (.error (strCP "DISCARD without MULTI"))), txs, ctx, sess, st)
        | some _ =>
          match inst.exec (some ctx) (some sess) st now_ms with
          | .error e => .error e
          | .ok (r, ctx2, sess2, st2) =>
            .ok (r, assocDel txs tid, ctx2.getD ctx, sess2.getD sess, st2)
      else
        match assocGet txs tid with
        | some q =>
          .ok (.bytes (encode_simple (strCP "QUEUED")), assocSet txs tid (q ++ [inst]),
            ctx, sess, st)
        | none =>
          match inst.exec (some ctx) (some sess) st now_ms with
          | .error e => .error e
          | .ok (r, ctx2, sess2, st2) => .ok (r, txs, ctx2.getD ctx, sess2.getD sess, st2)
  else .error (.exception ("Unknown command: " ++ command))

/-- `CommandRegistry.is_allowed_in_subscription_mode(cmd)`: the registry
lookup `self[cmd]` raises `KeyError` for unregistered names (there is no
RESET handler), otherwise membership in the six whitelisted classes. -/
def is_allowed_in_subscription_mode (cmd : String) : Except PyErr Bool :=
  if registeredNames.contains (pyToUpper cmd) then
    .ok (["SUBSCRIBE", "UNSUBSCRIBE", "PSUBSCRIBE", "PUNSUBSCRIBE", "PING",
      "QUIT"].contains (pyToUpper cmd))
  else .error (.keyError (pyToUpper cmd))

/-- The subscription-gate error message (`command.py` line 78). -/
def gateMsg (command : String) : String :=
  "Can\x27t execute \x27" ++ pyToLower command ++
    "\x27: only (P|S)SUBSCRIBE / (P|S)UNSUBSCRIBE / PING / QUIT / RESET are allowed in this context"

/-- The tail of `CommandRegistry.execute` after the subscription gate:
dispatch through `__execute` and adapt the reply (`None` falls through the
reply `match` and `execute` returns `None`). -/
def registryExecutePast (txs : TxMap) (tid : Nat) (ctx : Context)
    (sess : Session) (command : String) (args : List String)
    (st : ServerState) (now_ms : Int) :
    Except PyErr (Option (List (List Nat)) × TxMap × Context × Session × ServerState) :=
  match registryExecuteInner txs tid ctx sess command args st now_ms with
  | .error e => .error e
  | .ok (r, txs2, ctx2, sess2, st2) =>
    match r with
    | .frames ps => .ok (some ps, txs2, ctx2, sess2, st2)
    | .bytes b => .ok (some [b], txs2, ctx2, sess2, st2)
    | .noneReply => .ok (none, txs2, ctx2, sess2, st2)

/-- `CommandRegistry.execute`: the subscription-mode gate, then
`__execute`. -/
def registryExecute (txs : TxMap) (tid : Nat) (ctx : Context) (sess : Session)
    (command : String) (args : List String) (st : ServerState) (now_ms : Int) :
    Except PyErr (Option (List (List Nat)) × TxMap × Context × Session × ServerState) :=
  if 0 < sess.subscriptions then
    match is_allowed_in_subscription_mode command with
    | .error e => .error e
    | .ok allowed =>
      if allowed then registryExecutePast txs tid ctx sess command args st now_ms
      else .ok (some [encode (.error (strCP (gateMsg command)))], txs, ctx, sess, st)
  else registryExecutePast txs tid ctx sess command args st now_ms

/-! ## Multi-session subscription registry (`SUBSCRIBE`/`UNSUBSCRIBE`)

`subscribers` holds references to the shared mutable `Session` objects;
distinct live connections carry distinct reader/writer streams, so the
dataclass equality used by `list.remove` coincides with identity. Sessions
are therefore identified here by a connection id `sid : Nat`. -/

/-- The process-wide subscription state: every session's own channel set
(`Session.channels`) and the module-level `subscribers` dict. -/
structure PubSubState where
  sessions : List (Nat × List String)
  subscribers : List (String × List Nat)
  deriving DecidableEq, Repr

/-- A session's channel set (empty for a fresh session). -/
def psChannels (st : PubSubState) (sid : Nat) : List String :=
  (assocGet st.sessions sid).getD []

/-- `subscribers[ch]` (a `defaultdict(list)`). -/
def psSubs (st : PubSubState) (ch : String) : List Nat :=
  (assocGet st.subscribers ch).getD []

/-- `SUBSCRIBE.execute` for session `sid`: if `session.subscribe(channel)`
reports the channel as new, append the session to `subscribers[channel]`. -/
def psSubscribe (st : PubSubState) (sid : Nat) (ch : String) : PubSubState :=
  let c := psChannels st sid
  if ch ∈ c then st
  else
    { sessions := assocSet st.sessions sid (c ++ [ch]),
      subscribers := assocSet st.subscribers ch (psSubs st ch ++ [sid]) }

/-- `UNSUBSCRIBE.execute` for session `sid`: if `session.unsubscribe(channel)`
reports the channel as present, `subscribers[channel].remove(session)`
(removal of the first occurrence). -/
def psUnsubscribe (st : PubSubState) (sid : Nat) (ch : String) : PubSubState :=
  let c := psChannels st sid
  if ch ∈ c then
    { sessions := assocSet st.sessions sid (c.erase ch),
      subscribers := assocSet st.subscribers ch ((psSubs st ch).erase sid) }
  else st

/-- One SUBSCRIBE or UNSUBSCRIBE command, tagged with the issuing session. -/
inductive PubSubOp where
  | sub (sid : Nat) (ch : String)
  | unsub (sid : Nat) (ch : String)
  deriving DecidableEq, Repr

/-- Apply one command. -/
def psApply (st : PubSubState) : PubSubOp → PubSubState
  | .sub sid ch => psSubscribe st sid ch
  | .unsub sid ch => psUnsubscribe st sid ch

/-- Run a command sequence from the initial state (no sessions subscribed,
empty registry). -/
def psRun (ops : List PubSubOp) : PubSubState :=
  ops.foldl psApply ⟨[], []⟩

/-! ## Statement-side vocabulary -/

/-- Every code point below 128. -/
def asciiB (s : List Nat) : Bool := s.all (· < 128)

/-- The domain on which the codec round-trip holds: ASCII bulk strings,
integers, errors whose ASCII message contains no CRLF, and arrays whose
elements are all ASCII bulk strings. -/
def SafeB : PyVal → Bool
  | .str s => asciiB s
  | .int _ => true
  | .error m => asciiB m && (findSub m).isNone
  | .list l =>
    l.all fun v =>
      match v with
      | .str s => asciiB s
      | _ => false
  | _ => false

/-- Modelled from the spec (§4.2, LRANGE): a start/end index with negative
values normalized from the tail and clamped at zero. -/
def specNormIdx (n : Nat) (i : Int) : Nat :=
  (if i ≥ 0 then i else max 0 ((n : Int) + i)).toNat

/-- Modelled from the spec (§3): the numeric pair `(ms, seq)` denoted by an
id string `"<ms>-<seq>"`. -/
def specIdPair (s : String) : Option (Nat × Nat) :=
  match pySplitDash s with
  | [ms, seq] =>
    match strIntParse ms, strIntParse seq with
    | .ok a, .ok b => if 0 ≤ a ∧ 0 ≤ b then some (a.toNat, b.toNat) else none
    | _, _ => none
  | _ => none

/-- Modelled from the spec (§3): numeric comparison of id pairs. -/
def specPairLt (a b : Nat × Nat) : Bool :=
  decide (a.1 < b.1) || (decide (a.1 = b.1) && decide (a.2 < b.2))

/-- Streams obtainable from the empty stream by successful `append`s. -/
inductive ReachableStream : Stream → Prop where
  | empty : ReachableStream ⟨[]⟩
  | append {s : Stream} {e : StreamEntry} {now : Nat} {s2 : Stream}
      {e2 : StreamEntry} : ReachableStream s →
      Stream.append s e now = .ok (s2, e2) → ReachableStream s2

/-- The registry-consistency invariant: a session id occurs in
`subscribers[ch]` exactly once when `ch` is in its channel set, never
otherwise; channel sets are duplicate-free. -/
def psInv (st : PubSubState) : Prop :=
  (∀ sid, (psChannels st sid).Nodup) ∧
  (∀ sid ch, (psSubs st ch).count sid = if ch ∈ psChannels st sid then 1 else 0)

/-! ## Helper lemmas -/

theorem take_min_length {α : Type} (l : List α) (b : Nat) :
    l.take (min b l.length) = l.take b := by
  rcases le_total b l.length with h | h
  · rw [min_eq_left h]
  · rw [min_eq_right h, List.take_length, List.take_of_length_le h]

theorem drop_min_of_le {α : Type} (x : List α) (a n : Nat) (h : x.length ≤ n) :
    x.drop (min a n) = x.drop a := by
  rcases le_total a n with h2 | h2
  · rw [min_eq_left h2]
  · rw [min_eq_right h2, List.drop_eq_nil_of_le h,
      List.drop_eq_nil_of_le (le_trans h h2)]

theorem pySlice_nonneg {α : Type} (l : List α) (a b : Int) (ha : 0 ≤ a)
    (hb : 0 ≤ b) : pySlice l a b = (l.take b.toNat).drop a.toNat := by
  unfold pySlice pyIdx
  rw [if_neg (by omega), if_neg (by omega), take_min_length]
  exact drop_min_of_le _ _ _ (by rw [List.length_take]; omega)

theorem pySlice_append_exact {α : Type} (p m s : List α) :
    pySlice (p ++ m ++ s) (↑p.length) (↑p.length + ↑m.length) = m := by
  have : ((↑p.length : Int) + ↑m.length) = ((p.length + m.length : Nat) : Int) := by
    push_cast; ring
  rw [this, pySlice_nonneg _ _ _ (by positivity) (by positivity), Int.toNat_natCast,
    Int.toNat_natCast, List.append_assoc, List.take_append, List.take_left,
    List.drop_left]

theorem dictLookup_set_self (st : StorageMap) (k : String) (x : StoredVal × Int) :
    dictLookup (dictSet st k x) k = some x := by
  induction st with
  | nil => simp [dictSet, dictLookup]
  | cons hd tl ih =>
    obtain ⟨k2, v2⟩ := hd
    by_cases h : k2 = k <;> simp [dictSet, dictLookup, h, ih]

theorem dictLookup_set_ne (st : StorageMap) (k k2 : String) (x : StoredVal × Int)
    (h : k2 ≠ k) : dictLookup (dictSet st k2 x) k = dictLookup st k := by
  induction st with
  | nil => simp [dictSet, dictLookup, h]
  | cons hd tl ih =>
    obtain ⟨k3, v3⟩ := hd
    by_cases h2 : k3 = k2
    · subst h2
      simp [dictSet, dictLookup, h]
    · simp [dictSet, dictLookup, h2, ih]

/-! ## C7: lazy expiry in `Storage.get` -/

/-- **C7**: `get(k)` returns the stored value while `now < expiry`, leaving
the store untouched; once the expiry has passed (`expiry ≤ now`) it deletes
the entry and reports the key absent; and `Storage.set` on another key never
removes the entry (removal happens only on such an access). -/
theorem get_lazy_expiry_contract (st : StorageMap) (k : String) (now : Int)
    (v : StoredVal) (e : Int) (h : dictLookup st k = some (v, e)) :
    (now < e → Storage.get st k now = (some v, st)) ∧
    (e ≤ now → Storage.get st k now = (none, dictDel st k)) ∧
    (∀ k2 v2 now2 d2, k2 ≠ k →
      dictLookup (Storage.set st k2 v2 now2 d2) k = some (v, e)) := by
  refine ⟨fun hlt => ?_, fun hge => ?_, fun k2 v2 now2 d2 hne => ?_⟩
  · unfold Storage.get
    rw [h]
    dsimp only
    rw [if_neg (by omega)]
  · unfold Storage.get
    rw [h]
    dsimp only
    rw [if_pos (by omega)]
  · unfold Storage.set
    rw [dictLookup_set_ne _ _ _ _ hne, h]

/-- Witness for C7 at a concrete store. -/
theorem get_lazy_expiry_contract_witness :
    Storage.get [("k", .vstr "v", 10)] "k" 3 =
      (some (.vstr "v"), [("k", .vstr "v", 10)]) :=
  (get_lazy_expiry_contract [("k", .vstr "v", 10)] "k" 3 (.vstr "v") 10 rfl).1
    (by decide)

/-! ## C8: `Storage.get_list_range` inclusive slice -/

/-- **C8**: for a stored (unexpired) list, `get_list_range k s e` returns the
inclusive slice between the tail-normalized indices: element `i` of the
result is element `s₂ + i` of the list exactly while `s₂ + i ≤ e₂`, and the
result is empty whenever `e₂ < s₂` after normalization. -/
theorem get_list_range_inclusive_slice (st : StorageMap) (k : String)
    (now : Int) (l : List String) (e : Int) (start fin : Int)
    (h : dictLookup st k = some (.vlist l, e)) (hfresh : now < e) :
    Storage.get_list_range st k start fin now =
      .ok ((l.take (specNormIdx l.length fin + 1)).drop (specNormIdx l.length start), st) ∧
    (∀ i : Nat,
      ((l.take (specNormIdx l.length fin + 1)).drop (specNormIdx l.length start))[i]? =
        if specNormIdx l.length start + i ≤ specNormIdx l.length fin then
          l[specNormIdx l.length start + i]? else none) ∧
    (specNormIdx l.length fin < specNormIdx l.length start →
      (l.take (specNormIdx l.length fin + 1)).drop (specNormIdx l.length start) = []) := by
  have hget : Storage.get_list st k now = .ok (l, st) := by
    unfold Storage.get_list Storage.get
    rw [h]
    dsimp only
    rw [if_neg (by omega)]
  refine ⟨?_, fun i => ?_, fun hlt => ?_⟩
  · unfold Storage.get_list_range
    rw [hget]
    dsimp only
    have hs0 : (0 : Int) ≤ if start ≥ 0 then start else max 0 ((l.length : Int) + start) := by
      split <;> omega
    have hf0 : (0 : Int) ≤ if fin ≥ 0 then fin else max 0 ((l.length : Int) + fin) := by
      split <;> omega
    rw [pySlice_nonneg _ _ _ hs0 (by omega)]
    have h1 : (if start ≥ 0 then start else max 0 ((l.length : Int) + start)).toNat
        = specNormIdx l.length start := rfl
    have h2 : ((if fin ≥ 0 then fin else max 0 ((l.length : Int) + fin)) + 1).toNat
        = specNormIdx l.length fin + 1 := by
      unfold specNormIdx
      revert hf0
      generalize (if fin ≥ 0 then fin else max 0 ((l.length : Int) + fin)) = x
      intro hx
      omega
    rw [h1, h2]
  · rw [List.getElem?_drop, List.getElem?_take]
    congr 1
    simp only [eq_iff_iff]
    omega
  · apply List.drop_eq_nil_of_le
    rw [List.length_take]
    omega

/-- Witness for C8: `LRANGE k -2 -1` on `["a","b","c"]`. -/
theorem get_list_range_inclusive_slice_witness :
    Storage.get_list_range [("k", .vlist ["a", "b", "c"], 10)] "k" (-2) (-1) 0 =
      .ok (((["a", "b", "c"].take (specNormIdx 3 (-1) + 1)).drop (specNormIdx 3 (-2))),
        [("k", .vlist ["a", "b", "c"], 10)]) :=
  (get_list_range_inclusive_slice [("k", .vlist ["a", "b", "c"], 10)] "k" 0
    ["a", "b", "c"] 10 (-2) (-1) rfl (by decide)).1

/-! ## C10: default TTL of `Storage.set` -/

/-- **C10**: every entry written by `Storage.set` carries the absolute expiry
`now + duration`; the default duration is exactly `10^10` ms, so a key set
without an explicit TTL is reported absent by `get` exactly once `10^10` ms
have elapsed. -/
theorem set_default_expiry (st : StorageMap) (k : String) (v : StoredVal)
    (now d now2 : Int) :
    dictLookup (Storage.set st k v now d) k = some (v, now + d) ∧
    DEFAULT_DURATION_MS = 10 ^ 10 ∧
    (now + 10 ^ 10 ≤ now2 →
      (Storage.get (Storage.set st k v now DEFAULT_DURATION_MS) k now2).1 = none) ∧
    (now2 < now + 10 ^ 10 →
      (Storage.get (Storage.set st k v now DEFAULT_DURATION_MS) k now2).1 = some v) := by
  have hl : ∀ d2 : Int, dictLookup (Storage.set st k v now d2) k = some (v, now + d2) :=
    fun d2 => dictLookup_set_self st k (v, now + d2)
  refine ⟨hl d, rfl, fun hle => ?_, fun hlt => ?_⟩
  · unfold Storage.get
    rw [hl]
    dsimp only
    rw [if_pos (by unfold DEFAULT_DURATION_MS at *; omega)]
  · unfold Storage.get
    rw [hl]
    dsimp only
    rw [if_neg (by unfold DEFAULT_DURATION_MS at *; omega)]

/-- Witness for C10: a key set at time 0 is gone at exactly `10^10`. -/
theorem set_default_expiry_witness :
    (Storage.get (Storage.set [] "k" (.vstr "v") 0 DEFAULT_DURATION_MS) "k"
      (10 ^ 10)).1 = none :=
  (set_default_expiry [] "k" (.vstr "v") 0 0 (10 ^ 10)).2.2.1 (by omega)

/-! ## C9: subscription-registry consistency -/

theorem assocGet_set {κ α : Type} [DecidableEq κ] (l : List (κ × α)) (k k2 : κ)
    (v : α) :
    assocGet (assocSet l k v) k2 = if k = k2 then some v else assocGet l k2 := by
  induction l with
  | nil => simp [assocSet, assocGet]
  | cons hd tl ih =>
    obtain ⟨k3, v3⟩ := hd
    by_cases h3 : k3 = k
    · subst h3
      simp only [assocSet, if_pos rfl]
      by_cases h : k3 = k2 <;> simp [assocGet, h]
    · simp only [assocSet, if_neg h3]
      by_cases h : k3 = k2
      · subst h
        have h4 : ¬(k = k3) := fun hh => h3 hh.symm
        simp [assocGet, h4]
      · simp [assocGet, h, ih]

theorem psChannels_subscribe (st : PubSubState) (sid sid2 : Nat) (ch : String)
    (h : ch ∉ psChannels st sid) :
    psChannels (psSubscribe st sid ch) sid2 =
      if sid = sid2 then psChannels st sid ++ [ch] else psChannels st sid2 := by
  unfold psSubscribe
  rw [if_neg h]
  unfold psChannels
  dsimp only
  rw [assocGet_set]
  by_cases h2 : sid = sid2 <;> simp [h2]

theorem psSubs_subscribe (st : PubSubState) (sid : Nat) (ch ch2 : String)
    (h : ch ∉ psChannels st sid) :
    psSubs (psSubscribe st sid ch) ch2 =
      if ch = ch2 then psSubs st ch ++ [sid] else psSubs st ch2 := by
  unfold psSubscribe
  rw [if_neg h]
  unfold psSubs
  dsimp only
  rw [assocGet_set]
  by_cases h2 : ch = ch2 <;> simp [h2]

theorem psChannels_unsubscribe (st : PubSubState) (sid sid2 : Nat) (ch : String)
    (h : ch ∈ psChannels st sid) :
    psChannels (psUnsubscribe st sid ch) sid2 =
      if sid = sid2 then (psChannels st sid).erase ch else psChannels st sid2 := by
  unfold psUnsubscribe
  rw [if_pos h]
  unfold psChannels
  dsimp only
  rw [assocGet_set]
  by_cases h2 : sid = sid2 <;> simp [h2]

theorem psSubs_unsubscribe (st : PubSubState) (sid : Nat) (ch ch2 : String)
    (h : ch ∈ psChannels st sid) :
    psSubs (psUnsubscribe st sid ch) ch2 =
      if ch = ch2 then (psSubs st ch).erase sid else psSubs st ch2 := by
  unfold psUnsubscribe
  rw [if_pos h]
  unfold psSubs
  dsimp only
  rw [assocGet_set]
  by_cases h2 : ch = ch2 <;> simp [h2]

theorem psInv_apply (st : PubSubState) (op : PubSubOp) (h : psInv st) :
    psInv (psApply st op) := by
  obtain ⟨hnd, hcount⟩ := h
  cases op with
  | sub sid ch =>
    dsimp only [psApply]
    by_cases hmem : ch ∈ psChannels st sid
    · have heq : psSubscribe st sid ch = st := by
        simp only [psSubscribe]
        rw [if_pos hmem]
      rw [heq]
      exact ⟨hnd, hcount⟩
    · constructor
      · intro sid2
        rw [psChannels_subscribe st sid sid2 ch hmem]
        by_cases h2 : sid = sid2
        · simp only [if_pos h2]
          subst h2
          refine (hnd sid).append (List.nodup_singleton ch) ?_
          intro a ha hb
          rw [List.mem_singleton] at hb
          subst hb
          exact hmem ha
        · simp [h2, hnd]
      · intro sid2 ch2
        rw [psChannels_subscribe st sid sid2 ch hmem,
          psSubs_subscribe st sid ch ch2 hmem]
        by_cases hc : ch = ch2 <;> by_cases hs : sid = sid2
        · rw [if_pos hc, if_pos hs, ← hc, ← hs]
          simp [List.count_append, hcount sid ch, hmem]
        · rw [if_pos hc, if_neg hs, ← hc]
          rw [List.count_append, hcount sid2 ch]
          have h5 : sid2 ≠ sid := fun h2 => hs h2.symm
          simp [h5]
        · rw [if_neg hc, if_pos hs, ← hs]
          rw [hcount sid ch2]
          have h5 : (ch2 ∈ psChannels st sid ++ [ch]) = (ch2 ∈ psChannels st sid) := by
            rw [eq_iff_iff, List.mem_append, List.mem_singleton]
            exact ⟨fun h2 => h2.resolve_right fun h3 => hc h3.symm, fun h2 => Or.inl h2⟩
          simp only [h5]
        · rw [if_neg hc, if_neg hs]
          exact hcount sid2 ch2
  | unsub sid ch =>
    dsimp only [psApply]
    by_cases hmem : ch ∈ psChannels st sid
    · constructor
      · intro sid2
        rw [psChannels_unsubscribe st sid sid2 ch hmem]
        by_cases h2 : sid = sid2
        · simp only [if_pos h2]
          subst h2
          exact (hnd sid).erase ch
        · simp [h2, hnd]
      · intro sid2 ch2
        rw [psChannels_unsubscribe st sid sid2 ch hmem,
          psSubs_unsubscribe st sid ch ch2 hmem]
        by_cases hc : ch = ch2 <;> by_cases hs : sid = sid2
        · rw [if_pos hc, if_pos hs, ← hc, ← hs]
          rw [List.count_erase_self, hcount sid ch, if_pos hmem]
          have h5 : ch ∉ (psChannels st sid).erase ch := by
            intro h6
            exact (((hnd sid).mem_erase_iff).mp h6).1 rfl
          simp [h5]
        · rw [if_pos hc, if_neg hs, ← hc]
          rw [List.count_erase_of_ne (fun h2 => hs h2.symm), hcount sid2 ch]
        · rw [if_neg hc, if_pos hs, ← hs]
          rw [hcount sid ch2]
          have h5 : (ch2 ∈ (psChannels st sid).erase ch) = (ch2 ∈ psChannels st sid) := by
            rw [eq_iff_iff, (hnd sid).mem_erase_iff]
            exact ⟨fun h2 => h2.2, fun h2 => ⟨fun h3 => hc h3.symm, h2⟩⟩
          simp only [h5]
        · rw [if_neg hc, if_neg hs]
          exact hcount sid2 ch2
    · have heq : psUnsubscribe st sid ch = st := by
        simp only [psUnsubscribe]
        rw [if_neg hmem]
      rw [heq]
      exact ⟨hnd, hcount⟩

theorem psInv_run (ops : List PubSubOp) : psInv (psRun ops) := by
  have base : psInv ⟨[], []⟩ := by
    constructor
    · intro sid; simp [psChannels, assocGet]
    · intro sid ch; simp [psSubs, psChannels, assocGet]
  unfold psRun
  generalize hst : (⟨[], []⟩ : PubSubState) = st
  rw [hst] at base
  clear hst
  induction ops generalizing st with
  | nil => simpa using base
  | cons op rest ih =>
    simp only [List.foldl_cons]
    exact ih (psApply st op) (psInv_apply st op base)

/-! ## C3: stream id monotonicity -/

theorem charListLt_trichotomy (a b : List Char) :
    charListLt a b = true ∨ a = b ∨ charListLt b a = true := by
  induction a generalizing b with
  | nil =>
    cases b with
    | nil => exact Or.inr (Or.inl rfl)
    | cons y ys => exact Or.inl rfl
  | cons x xs ih =>
    cases b with
    | nil => exact Or.inr (Or.inr rfl)
    | cons y ys =>
      rcases Nat.lt_trichotomy x.toNat y.toNat with h | h | h
      · left
        simp [charListLt, h]
      · have hxy : x = y := by
          rw [← Char.ofNat_toNat x, ← Char.ofNat_toNat y, h]
        subst hxy
        rcases ih ys with h2 | h2 | h2
        · left
          simp [charListLt, h2]
        · right; left
          rw [h2]
        · right; right
          simp [charListLt, h2]
      · right; right
        simp [charListLt, h, Nat.lt_asymm h]

theorem pyStrLt_of_not_le (a b : String) (h : pyStrLe b a = false) :
    pyStrLt a b = true := by
  unfold pyStrLe pyStrLt at *
  rw [Bool.or_eq_false_iff] at h
  obtain ⟨h1, h2⟩ := h
  rcases charListLt_trichotomy a.data b.data with h3 | h3 | h3
  · exact h3
  · exfalso
    have hab : a = b := by
      cases a with
      | mk da =>
        cases b with
        | mk db =>
          cases h3
          rfl
    subst hab
    simp at h2
  · rw [h3] at h1
    exact absurd h1 (by simp)

/-- The successful-append shape: the entry goes to the back, and when the
stream was non-empty the accepted resolved id is strictly greater than the
previous last id in Python string order. -/
theorem append_ok_shape (s : Stream) (entry : StreamEntry) (now : Nat)
    (s2 : Stream) (e2 : StreamEntry)
    (h : Stream.append s entry now = .ok (s2, e2)) :
    s2.entries = s.entries ++ [e2] ∧
    ∀ last, s.entries.getLast? = some last → pyStrLt last.idx e2.idx = true := by
  unfold Stream.append at h
  cases hinc : entry.increment_idx_seq_num_and_get none now with
  | error e =>
    rw [hinc] at h
    exact absurd h (by simp)
  | ok e0 =>
    rw [hinc] at h
    dsimp only at h
    by_cases hz : pyStrLe e0.idx "0-0" = true
    · rw [if_pos hz] at h
      exact absurd h (by simp)
    · rw [if_neg hz] at h
      cases hlast : s.entries.getLast? with
      | none =>
        rw [hlast] at h
        dsimp only at h
        injection h with h4
        injection h4 with h5 h6
        subst h6
        refine ⟨by rw [← h5], fun last hl => ?_⟩
        exact absurd hl (by simp)
      | some last =>
        rw [hlast] at h
        dsimp only at h
        cases hinc2 : entry.increment_idx_seq_num_and_get (some last) now with
        | error e =>
          rw [hinc2] at h
          exact absurd h (by simp)
        | ok e1 =>
          rw [hinc2] at h
          dsimp only at h
          by_cases hle : pyStrLe e1.idx last.idx = true
          · rw [if_pos hle] at h
            exact absurd h (by simp)
          · rw [if_neg hle] at h
            injection h with h4
            injection h4 with h5 h6
            subst h6
            refine ⟨by rw [← h5], fun last2 hl2 => ?_⟩
            injection hl2 with h7
            subst h7
            exact pyStrLt_of_not_le _ _ (Bool.eq_false_iff.mpr hle)

/-- **C3 counterexample**: against a stream whose last id is `10-0`, an XADD
of `9-1` *succeeds* (`"10-0" >= "9-1"` is false as Python strings), although
`(9,1)` is numerically smaller than `(10,0)` — so ids are not strictly
increasing under numeric comparison, and ids not numerically greater are not
always rejected. -/
theorem stream_append_accepts_numerically_smaller :
    Stream.append ⟨[⟨"10-0", ["a"]⟩]⟩ (StreamEntry.make "9-1" ["b"] 0) 0 =
      .ok (⟨[⟨"10-0", ["a"]⟩, ⟨"9-1", ["b"]⟩]⟩, ⟨"9-1", ["b"]⟩) ∧
    specIdPair "9-1" = some (9, 1) ∧
    specIdPair "10-0" = some (10, 0) ∧
    specPairLt (9, 1) (10, 0) = true :=
  ⟨rfl, rfl, rfl, rfl⟩

/-- **C3 (amended)**: ids of a stream built by successful `append`s are
strictly increasing in Python *string* order of the `"<ms>-<seq>"` form (not
numeric order of the pairs), and — when the `0-0` guard passes and the
stream is non-empty — `append` rejects with the
`equal or smaller than the target stream top item` error exactly those
resolved ids that compare `<=` to the current last id as strings. -/
theorem stream_ids_string_monotonic :
    (∀ s, ReachableStream s →
      s.entries.Chain' (fun a b => pyStrLt a.idx b.idx = true)) ∧
    (∀ s entry now s2 e2, Stream.append s entry now = .ok (s2, e2) →
      s2.entries = s.entries ++ [e2] ∧
      ∀ last, s.entries.getLast? = some last → pyStrLt last.idx e2.idx = true) ∧
    (∀ (s : Stream) (entry : StreamEntry) (now : Nat) last e0 e1,
      entry.increment_idx_seq_num_and_get none now = .ok e0 →
      pyStrLe e0.idx "0-0" = false →
      s.entries.getLast? = some last →
      entry.increment_idx_seq_num_and_get (some last) now = .ok e1 →
      (Stream.append s entry now = .error (.valueError
          "The ID specified in XADD is equal or smaller than the target stream top item")
        ↔ pyStrLe e1.idx last.idx = true)) := by
  refine ⟨?_, append_ok_shape, ?_⟩
  · intro s hr
    induction hr with
    | empty => simp
    | append hr happ ih =>
      obtain ⟨hents, hlast⟩ := append_ok_shape _ _ _ _ _ happ
      rw [hents, List.chain'_append]
      refine ⟨ih, List.chain'_singleton _, fun x hx y hy => ?_⟩
      rw [List.head?_cons, Option.mem_def] at hy
      injection hy with hy2
      subst hy2
      exact hlast x hx
  · intro s entry now last e0 e1 hinc0 hz hlast hinc1
    unfold Stream.append
    rw [hinc0]
    dsimp only
    rw [if_neg (by rw [hz]; exact Bool.false_ne_true), hlast]
    dsimp only
    rw [hinc1]
    dsimp only
    by_cases hle : pyStrLe e1.idx last.idx = true
    · rw [if_pos hle]
      exact ⟨fun _ => hle, fun _ => rfl⟩
    · rw [if_neg hle]
      exact ⟨fun h2 => absurd h2 (by simp), fun h2 => absurd h2 hle⟩

/-- Witness for the amended C3 at the concrete append `1-1` then `1-*`. -/
theorem stream_ids_string_monotonic_witness :
    (⟨[⟨"1-1", ["a"]⟩, ⟨"1-2", ["b"]⟩]⟩ : Stream).entries =
      (⟨[⟨"1-1", ["a"]⟩]⟩ : Stream).entries ++ [⟨"1-2", ["b"]⟩] ∧
    ∀ last, (⟨[⟨"1-1", ["a"]⟩]⟩ : Stream).entries.getLast? = some last →
      pyStrLt last.idx ("1-2" : String) = true :=
  stream_ids_string_monotonic.2.1 ⟨[⟨"1-1", ["a"]⟩]⟩
    (StreamEntry.make "1-*" ["b"] 0) 0 ⟨[⟨"1-1", ["a"]⟩, ⟨"1-2", ["b"]⟩]⟩
    ⟨"1-2", ["b"]⟩ rfl

/-! ## C5: RPUSH/LPUSH notification count -/

theorem notifyOnce_all_live (q : List Waiter) (h : ∀ w ∈ q, w.live = true) :
    notifyOnce q = q.drop 1 := by
  cases q with
  | nil => rfl
  | cons w ws =>
    unfold notifyOnce
    rw [if_pos (h w (by simp))]
    rfl

theorem notify_all_live (times : Nat) (wq : WaitQueue) (k : String)
    (q : List Waiter) (hq : wqGet wq k = q) (h : ∀ w ∈ q, w.live = true) :
    wqGet (notify_waiting_list wq k times) k = q.drop times := by
  induction times generalizing wq q with
  | zero => simpa [notify_waiting_list] using hq
  | succ t ih =>
    unfold notify_waiting_list
    have hget2 : wqGet (assocSet wq k (notifyOnce (wqGet wq k))) k = q.drop 1 := by
      unfold wqGet
      rw [assocGet_set, if_pos rfl, Option.getD_some]
      have hq2 : (assocGet wq k).getD [] = q := hq
      rw [hq2]
      exact notifyOnce_all_live q h
    rw [ih _ _ hget2 (fun w hw => h w (List.mem_of_mem_drop hw)), List.drop_drop,
      Nat.add_comm]

/-- **C5 counterexample**: with `["a"]` stored under `k` and two live
waiters parked on `k`, `RPUSH k b` (m = 1 pushed item) wakes *both*
waiters — the code calls `notify(key, len(values))` with the new length 2 —
whereas notifying `m = 1` times would have left one waiter parked. -/
theorem push_notify_count_cx :
    Cmd.exec (.RPUSH "k" ["b"]) none none
        ⟨[("k", .vlist ["a"], 50)], [("k", [⟨true⟩, ⟨true⟩])], []⟩ 0 =
      .ok (.bytes (encode (.int 2)), none, none,
        ⟨[("k", .vlist ["a", "b"], 10 ^ 10)], [("k", [])], []⟩) ∧
    notify_waiting_list [("k", [⟨true⟩, ⟨true⟩])] "k" 1 = [("k", [⟨true⟩])] ∧
    ([] : List Waiter) ≠ [⟨true⟩] :=
  ⟨rfl, rfl, by simp⟩

/-- **C5 (amended)**: RPUSH/LPUSH mutate the stored list, reply with the new
length, and notify the wait registry with the *new total length* of the list
(`notify(key, len(values))`), not with the number of pushed items; on an
all-live queue exactly `min(new length, queue length)` waiters are woken. -/
theorem push_notifies_new_length (storage : StorageMap) (waiting : WaitQueue)
    (subs : List (String × List Session)) (k : String) (items l : List String)
    (now : Int) (h : Storage.get_list storage k now = .ok (l, storage)) :
    (Cmd.exec (.RPUSH k items) none none ⟨storage, waiting, subs⟩ now =
      .ok (.bytes (encode (.int ((l.length + items.length : Nat) : Int))), none, none,
        ⟨Storage.set storage k (.vlist (l ++ items)) now DEFAULT_DURATION_MS,
          notify_waiting_list waiting k (l.length + items.length), subs⟩)) ∧
    (Cmd.exec (.LPUSH k items) none none ⟨storage, waiting, subs⟩ now =
      .ok (.bytes (encode (.int ((items.length + l.length : Nat) : Int))), none, none,
        ⟨Storage.set storage k (.vlist (items.reverse ++ l)) now DEFAULT_DURATION_MS,
          notify_waiting_list waiting k (items.length + l.length), subs⟩)) ∧
    (∀ q : List Waiter, (∀ w ∈ q, w.live = true) →
      (wqGet (notify_waiting_list (assocSet waiting k q) k (l.length + items.length)) k).length
        = q.length - (l.length + items.length)) := by
  refine ⟨?_, ?_, fun q hq => ?_⟩
  · unfold Cmd.exec
    dsimp only
    rw [h]
    dsimp only
    rw [List.length_append]
  · unfold Cmd.exec
    dsimp only
    rw [h]
    dsimp only
    rw [List.length_append, List.length_reverse]
  · have hget : wqGet (assocSet waiting k q) k = q := by
      unfold wqGet
      rw [assocGet_set, if_pos rfl, Option.getD_some]
    rw [notify_all_live _ _ _ q hget hq, List.length_drop]

/-- Witness for the amended C5: push one item onto a stored two-element
list with three live waiters parked. -/
theorem push_notifies_new_length_witness :
    Cmd.exec (.RPUSH "k" ["c"]) none none
        ⟨[("k", .vlist ["a", "b"], 50)], [], []⟩ 0 =
      .ok (.bytes (encode (.int ((2 + 1 : Nat) : Int))), none, none,
        ⟨Storage.set [("k", .vlist ["a", "b"], 50)] "k" (.vlist (["a", "b"] ++ ["c"]))
            0 DEFAULT_DURATION_MS,
          notify_waiting_list [] "k" (2 + 1), []⟩) :=
  (push_notifies_new_length [("k", .vlist ["a", "b"], 50)] [] [] "k" ["c"]
    ["a", "b"] 0 rfl).1

/-! ## C6: wrong-arity argv escapes the dispatcher -/

/-- **C6 counterexample**: dispatching `LRANGE k 1` (two arguments) makes
the constructor's `ValueError` escape `CommandRegistry.execute` — the
dispatcher does not reply with an error frame. -/
theorem arity_error_escape_cx :
    registryExecute [] 0 ⟨⟨true⟩, 0, [], false⟩ ⟨[]⟩ "LRANGE" ["k", "1"]
      ⟨[], [], []⟩ 0 = .error (.valueError "") := rfl

/-- **C6 (amended)**: for LRANGE with any argv that is not exactly three
arguments, the constructor raises `ValueError` and that exception propagates
out of the dispatcher uncaught; no error frame is produced by dispatch. -/
theorem arity_error_escapes_dispatch (txs : TxMap) (tid : Nat) (ctx : Context)
    (sess : Session) (args : List String) (st : ServerState) (now : Int)
    (hsub : sess.channels = []) (hlen : args.length ≠ 3) :
    cmdInit "LRANGE" args = .error (.valueError "") ∧
    registryExecute txs tid ctx sess "LRANGE" args st now =
      .error (.valueError "") := by
  have hinit : cmdInit "LRANGE" args = .error (.valueError "") := by
    rcases args with _ | ⟨a, _ | ⟨b, _ | ⟨c, _ | ⟨d, rest⟩⟩⟩⟩
    · rfl
    · rfl
    · rfl
    · exact absurd rfl hlen
    · rfl
  have hInner : registryExecuteInner txs tid ctx sess "LRANGE" args st now =
      .error (.valueError "") := by
    unfold registryExecuteInner
    dsimp only
    rw [if_pos (show registeredNames.contains (pyToUpper "LRANGE") = true from rfl)]
    rw [show pyToUpper "LRANGE" = "LRANGE" from rfl, hinit]
  refine ⟨hinit, ?_⟩
  unfold registryExecute
  rw [if_neg (by simp [Session.subscriptions, hsub])]
  unfold registryExecutePast
  rw [hInner]

/-- Witness for the amended C6 at `LRANGE k 1`. -/
theorem arity_error_escapes_dispatch_witness :
    cmdInit "LRANGE" ["k", "1"] = .error (.valueError "") ∧
    registryExecute [] 0 ⟨⟨true⟩, 0, [], false⟩ ⟨[]⟩ "LRANGE" ["k", "1"]
      ⟨[], [], []⟩ 0 = .error (.valueError "") :=
  arity_error_escapes_dispatch [] 0 ⟨⟨true⟩, 0, [], false⟩ ⟨[]⟩ ["k", "1"]
    ⟨[], [], []⟩ 0 rfl (by decide)

/-! ## C4: subscription-mode gate -/

/-- **C4 counterexample**: RESET is not in the whitelist — it is not even a
registered command, so dispatching `RESET` on a subscribed session raises
`KeyError` from the registry lookup instead of being dispatched normally
(QUIT, by contrast, is whitelisted). -/
theorem gate_reset_not_whitelisted_cx :
    registryExecute [] 0 ⟨⟨true⟩, 0, [], false⟩ ⟨["ch"]⟩ "RESET" []
      ⟨[], [], []⟩ 0 = .error (.keyError "RESET") ∧
    registeredNames.contains "RESET" = false ∧
    is_allowed_in_subscription_mode "QUIT" = .ok true :=
  ⟨rfl, rfl, rfl⟩

/-- **C4 (amended)**: while a session has subscriptions, dispatching any
*registered* command outside the six whitelisted ones (SUBSCRIBE,
UNSUBSCRIBE, PSUBSCRIBE, PUNSUBSCRIBE, PING, QUIT — RESET is not among
them) returns the gate error frame verbatim; the six whitelisted commands
pass the gate and are dispatched normally; an unregistered name (such as
RESET) raises `KeyError`. -/
theorem subscription_gate_six_whitelisted (txs : TxMap) (tid : Nat)
    (ctx : Context) (sess : Session) (command : String) (args : List String)
    (st : ServerState) (now : Int) (hsub : 0 < sess.subscriptions) :
    (registeredNames.contains (pyToUpper command) = true →
      (["SUBSCRIBE", "UNSUBSCRIBE", "PSUBSCRIBE", "PUNSUBSCRIBE", "PING",
        "QUIT"].contains (pyToUpper command)) = false →
      registryExecute txs tid ctx sess command args st now =
        .ok (some [encode (.error (strCP (gateMsg command)))], txs, ctx, sess, st)) ∧
    ((["SUBSCRIBE", "UNSUBSCRIBE", "PSUBSCRIBE", "PUNSUBSCRIBE", "PING",
        "QUIT"].contains (pyToUpper command)) = true →
      registryExecute txs tid ctx sess command args st now =
        registryExecutePast txs tid ctx sess command args st now) ∧
    (registeredNames.contains (pyToUpper command) = false →
      registryExecute txs tid ctx sess command args st now =
        .error (.keyError (pyToUpper command))) := by
  refine ⟨fun hreg hsix => ?_, fun hsix => ?_, fun hreg => ?_⟩
  · unfold registryExecute is_allowed_in_subscription_mode
    rw [if_pos hsub, if_pos hreg]
    dsimp only
    rw [if_neg (by rw [hsix]; exact Bool.false_ne_true)]
  · have hreg : registeredNames.contains (pyToUpper command) = true := by
      have hm : pyToUpper command ∈ ["SUBSCRIBE", "UNSUBSCRIBE", "PSUBSCRIBE",
          "PUNSUBSCRIBE", "PING", "QUIT"] := by
        simpa using hsix
      simp only [List.mem_cons, List.not_mem_nil, or_false] at hm
      rcases hm with h | h | h | h | h | h <;> rw [h] <;> rfl
    unfold registryExecute is_allowed_in_subscription_mode
    rw [if_pos hsub, if_pos hreg]
    dsimp only
    rw [if_pos hsix]
  · unfold registryExecute is_allowed_in_subscription_mode
    rw [if_pos hsub, if_neg (by rw [hreg]; exact Bool.false_ne_true)]

/-- Witness for the amended C4: `GET` blocked with the gate error frame on a
subscribed session. -/
theorem subscription_gate_six_whitelisted_witness :
    registryExecute [] 0 ⟨⟨true⟩, 0, [], false⟩ ⟨["ch"]⟩ "GET" ["k"]
      ⟨[], [], []⟩ 0 =
      .ok (some [encode (.error (strCP (gateMsg "GET")))], [],
        ⟨⟨true⟩, 0, [], false⟩, ⟨["ch"]⟩, ⟨[], [], []⟩) :=
  (subscription_gate_six_whitelisted [] 0 ⟨⟨true⟩, 0, [], false⟩ ⟨["ch"]⟩
    "GET" ["k"] ⟨[], [], []⟩ 0 (by decide)).1 rfl rfl

/-! ## C2: EXEC runs the queue without the opener's Context/Session -/

/-- **C2 counterexample**: a transaction opened under a context with one
replica queues `SET foo bar`; EXEC executes it and returns the opener's
context *unchanged* (no replica write, no pending-ack flag), whereas
executing the same queued command with that context produces a different
context — so EXEC does not execute queued commands with the Context the
transaction was opened under. -/
theorem exec_ignores_opener_context_cx :
    (registryExecute [(7, [.SET "foo" "bar" none ["foo", "bar"]])] 7
        ⟨⟨true⟩, 0, [[]], false⟩ ⟨[]⟩ "EXEC" [] ⟨[], [], []⟩ 0
      = .ok (some [encode (.list [.str (strCP "OK")])], [],
          ⟨⟨true⟩, 0, [[]], false⟩, ⟨[]⟩,
          ⟨[("foo", .vstr "bar", 10 ^ 10)], [], []⟩)) ∧
    (Cmd.exec (.SET "foo" "bar" none ["foo", "bar"])
        (some ⟨⟨true⟩, 0, [[]], false⟩) (some ⟨[]⟩) ⟨[], [], []⟩ 0
      = .ok (.bytes (encode_simple (strCP "OK")),
          some ⟨⟨true⟩, 0,
            [[encode (.list [.str (strCP "SET"), .str (strCP "foo"),
              .str (strCP "bar")])]], true⟩,
          some ⟨[]⟩, ⟨[("foo", .vstr "bar", 10 ^ 10)], [], []⟩)) ∧
    (⟨⟨true⟩, 0, [[]], false⟩ : Context) ≠
      ⟨⟨true⟩, 0, [[encode (.list [.str (strCP "SET"), .str (strCP "foo"),
        .str (strCP "bar")])]], true⟩ :=
  ⟨rfl, rfl, by decide⟩

/-- **C2 (amended)**: for every open transaction, `__execute`'s EXEC branch
executes the queued commands in submission order with *no* Context or
Session attached (both `None`), threading the shared state from one command
to the next, decodes each command's reply frame, returns the composite
encoded array, and hands back the opener's context and session unchanged. -/
theorem exec_runs_queue_without_context (txs : TxMap) (tid : Nat)
    (ctx : Context) (sess : Session) (st : ServerState) (now : Int)
    (q : List Cmd) (h : assocGet txs tid = some q) :
    (∀ rs st2, execQueue q st now = .ok (rs, st2) →
      registryExecuteInner txs tid ctx sess "EXEC" [] st now =
        .ok (.bytes (encode (.list rs)), assocDel txs tid, ctx, sess, st2)) ∧
    (∀ (c : Cmd) rest r cx sx stc v rs2 st3,
      c.exec none none st now = .ok (r, cx, sx, stc) →
      replyDecode r = .ok v →
      execQueue rest stc now = .ok (rs2, st3) →
      execQueue (c :: rest) st now = .ok (v :: rs2, st3)) ∧
    (∀ (q1 q2 : List Cmd) (st0 : ServerState) rs1 st1 rs2 st2,
      execQueue q1 st0 now = .ok (rs1, st1) →
      execQueue q2 st1 now = .ok (rs2, st2) →
      execQueue (q1 ++ q2) st0 now = .ok (rs1 ++ rs2, st2)) := by
  refine ⟨fun rs st2 hrun => ?_, fun c rest r cx sx stc v rs2 st3 h1 h2 h3 => ?_,
    fun q1 q2 st0 rs1 st1 rs2 st2 h1 h2 => ?_⟩
  · unfold registryExecuteInner
    dsimp only
    rw [if_pos (show registeredNames.contains (pyToUpper "EXEC") = true from rfl)]
    rw [show cmdInit (pyToUpper "EXEC") [] = .ok .EXEC from rfl]
    dsimp only
    rw [if_neg (show ¬(pyToUpper "EXEC" = "MULTI") by decide),
      if_pos (show pyToUpper "EXEC" = "EXEC" from rfl), h]
    dsimp only
    rw [hrun]
  · unfold execQueue
    rw [h1]
    dsimp only
    rw [h2]
    dsimp only
    rw [h3]
  · induction q1 generalizing st0 rs1 with
    | nil =>
      unfold execQueue at h1
      injection h1 with h4
      injection h4 with h5 h6
      subst h5
      subst h6
      simpa using h2
    | cons c rest ih =>
      rw [List.cons_append]
      unfold execQueue at h1 ⊢
      cases hc : c.exec none none st0 now with
      | error e =>
        rw [hc] at h1
        exact absurd h1 (by simp)
      | ok out =>
        obtain ⟨r, cx, sx, stc⟩ := out
        rw [hc] at h1
        dsimp only at h1 ⊢
        cases hd : replyDecode r with
        | error e =>
          rw [hd] at h1
          exact absurd h1 (by simp)
        | ok v =>
          rw [hd] at h1
          dsimp only at h1 ⊢
          cases hq : execQueue rest stc now with
          | error e =>
            rw [hq] at h1
            exact absurd h1 (by simp)
          | ok out2 =>
            obtain ⟨rs3, st4⟩ := out2
            rw [hq] at h1
            dsimp only at h1
            injection h1 with h4
            injection h4 with h5 h6
            subst h6
            rw [ih _ _ hq, ← h5]
            simp

/-- Witness for the amended C2: EXEC of a queued `SET foo bar`. -/
theorem exec_runs_queue_without_context_witness :
    registryExecuteInner [(7, [Cmd.SET "foo" "bar" none ["foo", "bar"]])] 7
        ⟨⟨true⟩, 0, [], false⟩ ⟨[]⟩ "EXEC" [] ⟨[], [], []⟩ 0 =
      .ok (.bytes (encode (.list [.str (strCP "OK")])), [],
        ⟨⟨true⟩, 0, [], false⟩, ⟨[]⟩,
        ⟨[("foo", .vstr "bar", 10 ^ 10)], [], []⟩) :=
  (exec_runs_queue_without_context [(7, [Cmd.SET "foo" "bar" none ["foo", "bar"]])]
    7 ⟨⟨true⟩, 0, [], false⟩ ⟨[]⟩ ⟨[], [], []⟩ 0
    [Cmd.SET "foo" "bar" none ["foo", "bar"]] rfl).1 [.str (strCP "OK")]
    ⟨[("foo", .vstr "bar", 10 ^ 10)], [], []⟩ rfl

/-! ## C1: codec round-trip — supporting lemmas -/

theorem findSub_none (a : List Nat) (h : ∀ x ∈ a, x ≠ 13) : findSub a = none := by
  induction a with
  | nil => rfl
  | cons x rest ih =>
    unfold findSub
    rw [if_neg (fun hc => h x (by simp) hc.1), ih (fun y hy => h y (by simp [hy]))]
    rfl

theorem findSub_append_crlf (a b : List Nat) (h : findSub a = none) :
    findSub (a ++ 13 :: 10 :: b) = some a.length := by
  induction a with
  | nil => simp [findSub]
  | cons x rest ih =>
    rw [List.cons_append]
    unfold findSub at h ⊢
    by_cases hx : x = 13 ∧ rest.head? = some 10
    · rw [if_pos hx] at h
      exact absurd h (by simp)
    · rw [if_neg hx] at h
      have hrest : findSub rest = none := by
        cases hfs : findSub rest with
        | none => rfl
        | some k =>
          rw [hfs] at h
          exact absurd h (by simp)
      have hcond : ¬(x = 13 ∧ (rest ++ 13 :: 10 :: b).head? = some 10) := by
        rintro ⟨hx13, hhead⟩
        cases rest with
        | nil => simp at hhead
        | cons y ys =>
          simp at hhead
          exact hx ⟨hx13, by simp [hhead]⟩
      rw [if_neg hcond, ih hrest]
      simp

theorem bytesFind_append (p a b : List Nat) (ha : findSub a = none) :
    bytesFind (p ++ (a ++ 13 :: 10 :: b)) (↑p.length) =
      ↑p.length + ↑a.length := by
  unfold bytesFind pyIdx
  rw [if_neg (by omega), Int.toNat_natCast, min_eq_left (by simp),
    List.drop_left, findSub_append_crlf a b ha]

theorem natDigitsAux_lt (fuel : Nat) : ∀ n, ∀ d ∈ natDigitsAux fuel n, d < 10 := by
  induction fuel with
  | zero =>
    intro n d hd
    simp [natDigitsAux] at hd
  | succ f ih =>
    intro n d hd
    cases n with
    | zero => simp [natDigitsAux] at hd
    | succ m =>
      unfold natDigitsAux at hd
      rcases List.mem_cons.mp hd with h | h
      · rw [h]
        exact Nat.mod_lt _ (by omega)
      · exact ih _ d h

theorem natDigitsAux_spec (fuel : Nat) : ∀ n, n ≤ fuel →
    natDigitsAux fuel n = Nat.digits 10 n := by
  induction fuel with
  | zero =>
    intro n h
    have : n = 0 := by omega
    subst this
    simp [natDigitsAux]
  | succ f ih =>
    intro n h
    cases n with
    | zero => simp [natDigitsAux]
    | succ m =>
      unfold natDigitsAux
      rw [ih ((m + 1) / 10) (by
        have := Nat.div_lt_self (show 0 < m + 1 by omega) (show 1 < 10 by omega)
        omega)]
      rw [Nat.digits_def' (show 1 < 10 by omega) (show 0 < m + 1 by omega)]

theorem mem_natDigits (n : Nat) : ∀ d ∈ natDigits n, 48 ≤ d ∧ d ≤ 57 := by
  intro d hd
  unfold natDigits at hd
  by_cases h : n = 0
  · rw [if_pos h] at hd
    simp at hd
    omega
  · rw [if_neg h] at hd
    rw [List.mem_map] at hd
    obtain ⟨x, hx, hdx⟩ := hd
    rw [List.mem_reverse] at hx
    have := natDigitsAux_lt n n x hx
    omega

theorem natDigits_ne_nil (n : Nat) : natDigits n ≠ [] := by
  unfold natDigits
  by_cases h : n = 0
  · simp [h]
  · rw [if_neg h]
    cases n with
    | zero => exact absurd rfl h
    | succ m => simp [natDigitsAux]

theorem digitsVal_aux (ds : List Nat) (acc : Nat) :
    (ds.reverse.map (· + 48)).foldl (fun a c => a * 10 + (c - 48)) acc =
      acc * 10 ^ ds.length + Nat.ofDigits 10 ds := by
  induction ds generalizing acc with
  | nil => simp [Nat.ofDigits]
  | cons d tl ih =>
    simp only [List.reverse_cons, List.map_append, List.map_cons, List.map_nil,
      List.foldl_append, List.foldl_cons, List.foldl_nil, ih, List.length_cons]
    rw [Nat.add_sub_cancel, Nat.ofDigits_cons, pow_succ]
    ring

theorem digitsVal_natDigits (n : Nat) : digitsVal (natDigits n) = n := by
  unfold natDigits digitsVal
  by_cases h : n = 0
  · simp [h]
  · rw [if_neg h, natDigitsAux_spec n n le_rfl, digitsVal_aux]
    simpa using Nat.ofDigits_digits 10 n

theorem natDigits_all_digitCodes (n : Nat) :
    (natDigits n).all isDigitCode = true := by
  rw [List.all_eq_true]
  intro x hx
  have := mem_natDigits n x hx
  unfold isDigitCode
  simp only [Bool.and_eq_true, decide_eq_true_eq]
  omega

theorem pyIntParse_natDigits (n : Nat) : pyIntParse (natDigits n) = .ok (n : Int) := by
  obtain ⟨c, rest, hcons⟩ : ∃ c rest, natDigits n = c :: rest := by
    cases hnd : natDigits n with
    | nil => exact absurd hnd (natDigits_ne_nil n)
    | cons c rest => exact ⟨c, rest, rfl⟩
  have hc := mem_natDigits n c (by rw [hcons]; simp)
  have hall := natDigits_all_digitCodes n
  rw [hcons] at hall
  rw [hcons]
  unfold pyIntParse
  dsimp only
  rw [if_neg (by omega), if_neg (by omega), if_pos hall, ← hcons,
    digitsVal_natDigits]

theorem mem_intDigits (z : Int) : ∀ d ∈ intDigits z, 45 ≤ d ∧ d ≤ 57 := by
  intro d hd
  unfold intDigits at hd
  by_cases h : z < 0
  · rw [if_pos h] at hd
    rcases List.mem_cons.mp hd with h2 | h2
    · omega
    · have := mem_natDigits _ _ h2
      omega
  · rw [if_neg h] at hd
    have := mem_natDigits _ _ hd
    omega

theorem pyIntParse_intDigits (z : Int) : pyIntParse (intDigits z) = .ok z := by
  unfold intDigits
  by_cases h : z < 0
  · rw [if_pos h]
    unfold pyIntParse
    dsimp only
    rw [if_pos rfl]
    rw [if_pos (by
      rw [Bool.and_eq_true]
      refine ⟨?_, natDigits_all_digitCodes _⟩
      simp [List.isEmpty_iff, natDigits_ne_nil])]
    rw [digitsVal_natDigits]
    congr 1
    omega
  · rw [if_neg h, pyIntParse_natDigits]
    congr 1
    omega

theorem utf8Encode_ascii (s : List Nat) (h : ∀ c ∈ s, c < 128) :
    utf8Encode s = s := by
  induction s with
  | nil => rfl
  | cons c cs ih =>
    unfold utf8Encode utf8EncodeChar
    rw [if_pos (h c (by simp)), ih (fun x hx => h x (by simp [hx]))]
    rfl

theorem utf8DecodeAux_ascii (fuel : Nat) : ∀ s : List Nat, s.length ≤ fuel →
    (∀ c ∈ s, c < 128) → utf8DecodeAux fuel s = some s := by
  induction fuel with
  | zero =>
    intro s hl h
    cases s with
    | nil => rfl
    | cons c cs => simp at hl
  | succ f ih =>
    intro s hl h
    cases s with
    | nil => rfl
    | cons c cs =>
      unfold utf8DecodeAux
      have hone : utf8DecodeOne c cs = some (c, cs) := by
        unfold utf8DecodeOne
        rw [if_pos (h c (List.mem_cons_self c cs))]
      rw [hone]
      dsimp only
      rw [ih cs (by simp only [List.length_cons] at hl; omega)
        (fun x hx => h x (List.mem_cons_of_mem c hx))]
      rfl

theorem utf8Decode_ascii (s : List Nat) (h : ∀ c ∈ s, c < 128) :
    utf8Decode s = some s :=
  utf8DecodeAux_ascii s.length s le_rfl h

theorem encode_str_ascii (s : List Nat) (h : ∀ c ∈ s, c < 128) :
    encode (.str s) = [36] ++ natDigits s.length ++ [13, 10] ++ s ++ [13, 10] := by
  simp only [encode, LINE_SEPARATOR, utf8Encode_ascii s h]

theorem encode_str_length (s : List Nat) (h : ∀ c ∈ s, c < 128) :
    (encode (.str s)).length = (natDigits s.length).length + s.length + 5 := by
  rw [encode_str_ascii s h]
  simp [List.length_append]
  omega

theorem bulk_guard (p suffix s : List Nat) (h : ∀ c ∈ s, c < 128) :
    pySlice (p ++ encode (.str s) ++ suffix) (↑p.length) (↑p.length + 1) = [36] := by
  have h2 : p ++ encode (.str s) ++ suffix =
      p ++ [36] ++ (natDigits s.length ++ [13, 10] ++ s ++ [13, 10] ++ suffix) := by
    rw [encode_str_ascii s h]
    simp [List.append_assoc]
  rw [h2]
  have h1 := pySlice_append_exact p [36] (natDigits s.length ++ [13, 10] ++ s ++ [13, 10] ++ suffix)
  simpa using h1

theorem decode_bulk_at (p suffix s : List Nat) (h : ∀ c ∈ s, c < 128) :
    decode_bulk_string (p ++ encode (.str s) ++ suffix) (↑p.length) =
      .ok (.str s, ↑p.length + ↑(encode (.str s)).length) := by
  have henc := encode_str_ascii s h
  unfold decode_bulk_string
  rw [if_pos (bulk_guard p suffix s h)]
  have hsep : bytesFind (p ++ encode (.str s) ++ suffix) (↑p.length + 1) =
      ↑p.length + 1 + ↑(natDigits s.length).length := by
    have h2 : p ++ encode (.str s) ++ suffix =
        (p ++ [36]) ++ (natDigits s.length ++ 13 :: 10 :: (s ++ 13 :: 10 :: suffix)) := by
      rw [henc]
      simp [List.append_assoc]
    have hnone : findSub (natDigits s.length) = none :=
      findSub_none _ (fun x hx => by have := mem_natDigits _ x hx; omega)
    have h3 := bytesFind_append (p ++ [36]) (natDigits s.length)
      (s ++ 13 :: 10 :: suffix) hnone
    rw [h2]
    have h4 : ((↑(p ++ [36]).length : Int)) = ↑p.length + 1 := by simp
    rw [h4] at h3
    exact h3
  rw [hsep]
  dsimp only
  have hlenslice : pySlice (p ++ encode (.str s) ++ suffix) (↑p.length + 1)
      (↑p.length + 1 + ↑(natDigits s.length).length) = natDigits s.length := by
    have h2 : p ++ encode (.str s) ++ suffix =
        (p ++ [36]) ++ natDigits s.length ++ ([13, 10] ++ s ++ [13, 10] ++ suffix) := by
      rw [henc]
      simp [List.append_assoc]
    have h1 := pySlice_append_exact (p ++ [36]) (natDigits s.length)
      ([13, 10] ++ s ++ [13, 10] ++ suffix)
    have h4 : ((↑(p ++ [36]).length : Int)) = ↑p.length + 1 := by simp
    rw [h4] at h1
    rw [h2]
    exact h1
  rw [hlenslice, pyIntParse_natDigits]
  dsimp only
  have hcontent : pySlice (p ++ encode (.str s) ++ suffix)
      (↑p.length + 1 + ↑(natDigits s.length).length + 2)
      (↑p.length + 1 + ↑(natDigits s.length).length + 2 + ↑s.length) = s := by
    have h2 : p ++ encode (.str s) ++ suffix =
        (p ++ [36] ++ natDigits s.length ++ [13, 10]) ++ s ++ ([13, 10] ++ suffix) := by
      rw [henc]
      simp [List.append_assoc]
    have h1 := pySlice_append_exact (p ++ [36] ++ natDigits s.length ++ [13, 10]) s
      ([13, 10] ++ suffix)
    have h4 : ((↑(p ++ [36] ++ natDigits s.length ++ [13, 10]).length : Int)) =
        ↑p.length + 1 + ↑(natDigits s.length).length + 2 := by
      simp [List.length_append]
      ring
    rw [h4] at h1
    rw [h2]
    exact h1
  rw [hcontent, utf8Decode_ascii s h]
  dsimp only
  congr 1
  rw [Prod.mk.injEq]
  refine ⟨rfl, ?_⟩
  rw [encode_str_length s h]
  push_cast
  ring

theorem pySlice_append_exact' {α : Type} (l p m s : List α) (a b : Int)
    (hl : l = p ++ m ++ s) (ha : a = ↑p.length) (hb : b = ↑p.length + ↑m.length) :
    pySlice l a b = m := by
  subst hl ha hb
  exact pySlice_append_exact p m s

theorem bytesFind_append' (l p a b : List Nat) (start r : Int)
    (hl : l = p ++ (a ++ 13 :: 10 :: b)) (hstart : start = ↑p.length)
    (ha : findSub a = none) (hr : r = ↑p.length + ↑a.length) :
    bytesFind l start = r := by
  subst hl hstart hr
  exact bytesFind_append p a b ha

theorem bulk_guard' (payload p suffix s : List Nat) (i j : Int)
    (hpay : payload = p ++ encode (.str s) ++ suffix) (hi : i = ↑p.length)
    (hj : j = ↑p.length + 1) (h : ∀ c ∈ s, c < 128) :
    pySlice payload i j = [36] := by
  subst hpay hi hj
  exact bulk_guard p suffix s h

theorem decode_bulk_at' (payload p suffix s : List Nat) (i r : Int)
    (hpay : payload = p ++ encode (.str s) ++ suffix) (hi : i = ↑p.length)
    (hr : r = ↑p.length + ↑(encode (.str s)).length) (h : ∀ c ∈ s, c < 128) :
    decode_bulk_string payload i = .ok (.str s, r) := by
  subst hpay hi hr
  exact decode_bulk_at p suffix s h

theorem starLoop_strs : ∀ (items : List (List Nat)) (p suffix : List Nat)
    (acc : List PyVal), (∀ s ∈ items, ∀ c ∈ s, c < 128) →
    starLoop (p ++ encodeList (items.map PyVal.str) ++ suffix) items.length
        (↑p.length) acc =
      .ok (acc ++ items.map PyVal.str,
        ↑p.length + ↑(encodeList (items.map PyVal.str)).length) := by
  intro items
  induction items with
  | nil =>
    intro p suffix acc h
    simp [encodeList, starLoop]
  | cons s rest ih =>
    intro p suffix acc h
    have hs := h s (List.mem_cons_self s rest)
    have hrest : ∀ t ∈ rest, ∀ c ∈ t, c < 128 :=
      fun t ht => h t (List.mem_cons_of_mem s ht)
    show starLoop _ (rest.length + 1) _ _ = _
    unfold starLoop
    rw [if_pos (bulk_guard' _ p (encodeList (rest.map PyVal.str) ++ suffix) s _ _
      (by simp [encodeList, List.append_assoc]) rfl rfl hs)]
    rw [decode_bulk_at' _ p (encodeList (rest.map PyVal.str) ++ suffix) s _ _
      (by simp [encodeList, List.append_assoc]) rfl rfl hs]
    dsimp only
    have hpayeq : p ++ encodeList ((s :: rest).map PyVal.str) ++ suffix
        = (p ++ encode (.str s)) ++ encodeList (rest.map PyVal.str) ++ suffix := by
      simp [encodeList, List.append_assoc]
    have hieq : (↑p.length : Int) + ↑(encode (.str s)).length
        = ↑(p ++ encode (.str s)).length := by
      simp
    have hihres := ih (p ++ encode (PyVal.str s)) suffix (acc ++ [PyVal.str s]) hrest
    rw [hpayeq, hieq, hihres]
    congr 1
    rw [Prod.mk.injEq]
    constructor
    · simp
    · simp [encodeList, List.length_append]
      ring

theorem decodeOne_str (s : List Nat) (h : ∀ c ∈ s, c < 128) :
    decodeOne (encode (.str s)) 0 = .ok (.str s, ↑(encode (.str s)).length) := by
  have hguard : pySlice (encode (.str s)) 0 (0 + 1) = [36] :=
    bulk_guard' _ [] [] s _ _ (by simp) (by simp) (by simp) h
  unfold decodeOne
  rw [hguard]
  rw [if_neg (by decide), if_neg (by decide), if_neg (by decide),
    if_neg (by decide), if_pos rfl]
  exact decode_bulk_at' _ [] [] s _ _ (by simp) (by simp) (by simp) h

theorem decodeOne_int (n : Int) :
    decodeOne (encode (.int n)) 0 = .ok (.int n, ↑(encode (.int n)).length) := by
  have henc : encode (.int n) = [58] ++ intDigits n ++ [13, 10] := by
    simp [encode, LINE_SEPARATOR]
  have hdig := mem_intDigits n
  have hascii : ∀ x ∈ intDigits n, x < 128 := fun x hx => by
    have := hdig x hx
    omega
  have hnone : findSub (intDigits n) = none :=
    findSub_none _ (fun x hx => by have := hdig x hx; omega)
  have hguard : pySlice (encode (.int n)) 0 (0 + 1) = [58] :=
    pySlice_append_exact' _ [] [58] (intDigits n ++ [13, 10]) _ _
      (by rw [henc]; simp [List.append_assoc]) (by simp) (by simp)
  unfold decodeOne
  rw [hguard]
  rw [if_neg (by decide), if_neg (by decide), if_pos rfl]
  dsimp only
  rw [bytesFind_append' (encode (.int n)) [58] (intDigits n) [] (0 + 1)
    (1 + ↑(intDigits n).length) (by rw [henc]; simp [List.append_assoc])
    (by simp) hnone (by simp)]
  rw [pySlice_append_exact' (encode (.int n)) [58] (intDigits n) [13, 10] _ _
    (by rw [henc]) (by simp) (by simp)]
  rw [utf8Decode_ascii _ hascii]
  dsimp only
  rw [pyIntParse_intDigits]
  dsimp only
  congr 1
  rw [Prod.mk.injEq]
  refine ⟨rfl, ?_⟩
  rw [henc]
  simp [List.length_append]
  ring

theorem findSub_cons_ne (x : Nat) (l : List Nat) (hx : x ≠ 13)
    (hl : findSub l = none) : findSub (x :: l) = none := by
  unfold findSub
  rw [hl, if_neg (fun hc => hx hc.1)]
  rfl

theorem decodeOne_err (m : List Nat) (hascii : ∀ c ∈ m, c < 128)
    (hnone : findSub m = none) :
    decodeOne (encode (.error m)) 0 = .ok (.error m, ↑(encode (.error m)).length) := by
  have henc : encode (.error m) = [45, 69, 82, 82, 32] ++ m ++ [13, 10] := by
    simp [encode, LINE_SEPARATOR, utf8Encode_ascii m hascii]
  have hnone4 : findSub ([69, 82, 82, 32] ++ m) = none :=
    findSub_cons_ne 69 _ (by omega) (findSub_cons_ne 82 _ (by omega)
      (findSub_cons_ne 82 _ (by omega) (findSub_cons_ne 32 _ (by omega) hnone)))
  have hguard : pySlice (encode (.error m)) 0 (0 + 1) = [45] :=
    pySlice_append_exact' _ [] [45] ([69, 82, 82, 32] ++ m ++ [13, 10]) _ _
      (by rw [henc]; simp [List.append_assoc]) (by simp) (by simp)
  unfold decodeOne
  rw [hguard]
  rw [if_neg (by decide), if_neg (by decide), if_neg (by decide),
    if_neg (by decide), if_neg (by decide), if_pos rfl]
  dsimp only
  rw [bytesFind_append' (encode (.error m)) [45] ([69, 82, 82, 32] ++ m) [] (0 + 1)
    (5 + ↑m.length) (by rw [henc]; simp [List.append_assoc]) (by simp) hnone4
    (by simp; ring)]
  rw [pySlice_append_exact' (encode (.error m)) [45, 69, 82, 82, 32] m [13, 10]
    (0 + 5) (5 + ↑m.length) (by rw [henc]) (by simp) (by simp)]
  rw [utf8Decode_ascii _ hascii]
  dsimp only
  congr 1
  rw [Prod.mk.injEq]
  refine ⟨rfl, ?_⟩
  rw [henc]
  simp [List.length_append]
  ring

theorem decodeOne_list (items : List (List Nat))
    (h : ∀ s ∈ items, ∀ c ∈ s, c < 128) :
    decodeOne (encode (.list (items.map PyVal.str))) 0 =
      .ok (.list (items.map PyVal.str),
        ↑(encode (.list (items.map PyVal.str))).length) := by
  have henc : encode (.list (items.map PyVal.str)) =
      [42] ++ natDigits items.length ++ [13, 10]
        ++ encodeList (items.map PyVal.str) := by
    simp only [encode, LINE_SEPARATOR, List.length_map]
  have hdignone : findSub (natDigits items.length) = none :=
    findSub_none _ (fun x hx => by have := mem_natDigits _ x hx; omega)
  have hdigascii : ∀ x ∈ natDigits items.length, x < 128 :=
    fun x hx => by have := mem_natDigits _ x hx; omega
  have hguard : pySlice (encode (.list (items.map PyVal.str))) 0 (0 + 1) = [42] :=
    pySlice_append_exact' _ [] [42]
      (natDigits items.length ++ [13, 10] ++ encodeList (items.map PyVal.str)) _ _
      (by rw [henc]; simp [List.append_assoc]) (by simp) (by simp)
  unfold decodeOne
  rw [hguard, if_pos rfl]
  dsimp only
  rw [bytesFind_append' (encode (.list (items.map PyVal.str))) [42]
    (natDigits items.length) (encodeList (items.map PyVal.str))
    (0 + 1) (1 + ↑(natDigits items.length).length)
    (by rw [henc]; simp [List.append_assoc]) (by simp) hdignone (by simp)]
  rw [pySlice_append_exact' (encode (.list (items.map PyVal.str))) [42]
    (natDigits items.length)
    ([13, 10] ++ encodeList (items.map PyVal.str)) _ _
    (by rw [henc]; simp [List.append_assoc]) (by simp) (by simp)]
  rw [utf8Decode_ascii _ hdigascii]
  dsimp only
  rw [pyIntParse_natDigits]
  dsimp only
  rw [Int.toNat_natCast]
  have hstar := starLoop_strs items ([42] ++ natDigits items.length ++ [13, 10]) [] [] h
  have hpay2 : ([42] ++ natDigits items.length ++ [13, 10])
        ++ encodeList (items.map PyVal.str) ++ []
      = encode (.list (items.map PyVal.str)) := by
    rw [henc]
    simp [List.append_assoc]
  have hoff2 : (↑([42] ++ natDigits items.length ++ [13, 10]).length : Int)
      = 1 + ↑(natDigits items.length).length + 2 := by
    simp [List.length_append]
    ring
  rw [hpay2, hoff2] at hstar
  rw [hstar]
  dsimp only
  congr 1
  rw [Prod.mk.injEq]
  refine ⟨rfl, ?_⟩
  rw [henc]
  simp [List.length_append]
  ring

theorem safe_list_shape (l : List PyVal) (h : SafeB (.list l) = true) :
    ∃ items : List (List Nat), l = items.map PyVal.str ∧
      ∀ s ∈ items, ∀ c ∈ s, c < 128 := by
  induction l with
  | nil => exact ⟨[], rfl, by simp⟩
  | cons v rest ih =>
    unfold SafeB at h
    dsimp only at h
    rw [List.all_cons, Bool.and_eq_true] at h
    obtain ⟨hv, hrest⟩ := h
    obtain ⟨items, hitems, hascii⟩ := ih (by unfold SafeB; exact hrest)
    cases v with
    | str s =>
      refine ⟨s :: items, by rw [hitems]; rfl, ?_⟩
      intro t ht c hc
      rcases List.mem_cons.mp ht with h3 | h3
      · subst h3
        dsimp only at hv
        unfold asciiB at hv
        simp only [List.all_eq_true, decide_eq_true_eq] at hv
        exact hv c hc
      · exact hascii t h3 c hc
    | int n => simp at hv
    | noneVal => simp at hv
    | list l2 => simp at hv
    | error m => simp at hv
    | bytes b => simp at hv
    | map kvs => simp at hv

theorem encode_length_pos (v : PyVal) : 0 < (encode v).length := by
  cases v <;> simp [encode, LINE_SEPARATOR]

/-- **C1 counterexample**: the round-trip fails on values `encode` accepts:
`None` encodes to `$-1\r\n`, which `decode` parses as a one-element array
holding the empty string; a dict encodes to a `%` map frame the decoder does
not recognize; an array holding an integer comes back with a spurious empty
array prepended (the `*` loop only consumes `$` items). -/
theorem codec_roundtrip_cx :
    decode (encode .noneVal) = .ok (.list [.str []]) ∧
    PyVal.list [PyVal.str []] ≠ PyVal.noneVal ∧
    decode (encode (.map [(strCP "a", .int 1)])) =
      .error (.exception "Unknown data type") ∧
    decode (encode (.list [.int 1])) = .ok (.list [.list [], .int 1]) :=
  ⟨rfl, fun h => PyVal.noConfusion h, rfl, rfl⟩

/-- **C1 (amended)**: `decode (encode v) = v` holds for every `v` in the
`SafeB` class — ASCII strings, integers, errors whose ASCII message contains
no CRLF (compared by message), and arrays of ASCII strings. It fails in
general outside that class (`None`, dicts, bytes, non-ASCII strings, arrays
with non-bulk-string elements; floats are outside the model). -/
theorem codec_roundtrip_safe (v : PyVal) (h : SafeB v = true) :
    decode (encode v) = .ok v := by
  have hone : decodeOne (encode v) 0 = .ok (v, ↑(encode v).length) := by
    cases v with
    | str s =>
      apply decodeOne_str
      unfold SafeB asciiB at h
      simp only [List.all_eq_true, decide_eq_true_eq] at h
      exact h
    | int n => exact decodeOne_int n
    | error m =>
      unfold SafeB at h
      rw [Bool.and_eq_true] at h
      refine decodeOne_err m ?_ ?_
      · have h3 := h.1
        unfold asciiB at h3
        simp only [List.all_eq_true, decide_eq_true_eq] at h3
        exact h3
      · have h3 := h.2
        rwa [Option.isNone_iff_eq_none] at h3
    | list l =>
      obtain ⟨items, hitems, hascii⟩ := safe_list_shape l h
      subst hitems
      exact decodeOne_list items hascii
    | noneVal => exact absurd h (by simp [SafeB])
    | bytes b => exact absurd h (by simp [SafeB])
    | map kvs => exact absurd h (by simp [SafeB])
  unfold decode decodeLoop
  rw [if_pos (by exact_mod_cast encode_length_pos v)]
  dsimp only
  rw [hone]
  dsimp only
  rw [if_pos rfl]

/-- Witness for the amended C1 at the array `["hi"]`. -/
theorem codec_roundtrip_safe_witness :
    SafeB (.list [.str [104, 105]]) = true ∧
    decode (encode (.list [.str [104, 105]])) = .ok (.list [.str [104, 105]]) :=
  ⟨rfl, codec_roundtrip_safe (.list [.str [104, 105]]) rfl⟩

/-- **C9**: after any sequence of SUBSCRIBE/UNSUBSCRIBE commands starting
from the empty registry, a session appears in the process-wide
`subscribers[ch]` list exactly when `ch` is in that session's own channel
set, and never more than once (no duplicate or dangling entries). -/
theorem subscription_registry_consistent (ops : List PubSubOp) (sid : Nat)
    (ch : String) :
    (sid ∈ psSubs (psRun ops) ch ↔ ch ∈ psChannels (psRun ops) sid) ∧
    (psSubs (psRun ops) ch).count sid ≤ 1 := by
  have h := (psInv_run ops).2 sid ch
  constructor
  · rw [← List.count_pos_iff, h]
    by_cases h2 : ch ∈ psChannels (psRun ops) sid <;> simp [h2]
  · rw [h]
    split <;> omega

end Redis
